import Mathlib

/-!
Verification of the SFT (Short Fourier Transform) file-IO layer of lalsuite
(`SFTfileIO.c`): CRC64 engine, binary header codec, writer, catalog builder,
segment loader, file/glob resolver and the SFDB format-normalizing importer.

Modelling conventions (shallow embedding of the C source):
* C strings are lists of byte values (`List Nat`, each `< 256`, no embedded 0);
* `REAL8` values are modelled as exact rationals (`ℚ`); `INT4`/`UINT4` as `ℤ`/`ℕ`
  with explicit wrapping where the source relies on it;
* the byte image of a `REAL8` field (needed only as CRC input, never interpreted)
  is abstracted by a function `re8 : ℚ → List Nat` standing for the in-memory
  IEEE-754 representation; all theorems hold for every such function;
* file contents are modelled structurally: a stored SFT block is the raw header
  record (as the C struct that `fread`/`fwrite` copy verbatim) together with the
  byte list that follows it (comment bytes, then payload bytes);
* only the native-endian path is modelled (`swapEndian = FALSE`), which is the
  path exercised when reading back a file written on the same machine;
* fallible C functions returning NULL / error codes become `Except`/`Option`.
-/

namespace SFTio

/-- GPS epoch: integer seconds and nanoseconds (both INT4 in the source). -/
structure LIGOTimeGPS where
  gpsSeconds : ℤ
  gpsNanoSeconds : ℤ
  deriving DecidableEq, Repr

/-- Macro `GPS2REAL8(gps) = 1.0*gps.gpsSeconds + 1.e-9*gps.gpsNanoSeconds`,
modelled exactly over ℚ. -/
def GPS2REAL8 (gps : LIGOTimeGPS) : ℚ :=
  (gps.gpsSeconds : ℚ) + (gps.gpsNanoSeconds : ℚ) / 1000000000

/-- Macro `GPSEQUAL(gps1,gps2)`: componentwise equality of seconds and nanoseconds. -/
def GPSEQUAL (gps1 gps2 : LIGOTimeGPS) : Bool :=
  gps1.gpsSeconds = gps2.gpsSeconds ∧ gps1.gpsNanoSeconds = gps2.gpsNanoSeconds

/-- Macro `GPSZERO(gps)`: both components are zero. -/
def GPSZERO (gps : LIGOTimeGPS) : Bool :=
  gps.gpsSeconds = 0 ∧ gps.gpsNanoSeconds = 0

/-! ## CRC64 engine (`calc_crc64`) -/

/-- The CRC64 generator constant `POLY64 = 0xd800000000000000`. -/
def POLY64 : ℕ := 0xd800000000000000

/-- One table entry: starting from the byte index, eight rounds of
`part = (part >> 1) ^ POLY64` when the low bit is set, else `part >>= 1`. -/
def crcTableEntry (i : ℕ) : ℕ :=
  (List.range 8).foldl
    (fun part _ => if part % 2 = 1 then (part >>> 1) ^^^ POLY64 else part >>> 1) i

/-- The 256-entry CRC table the source rebuilds on every call. -/
def CRCTable : List ℕ := (List.range 256).map crcTableEntry

/-- One byte step of the CRC loop:
`crc = (crc >> 8) ^ CRCTable[(crc ^ (UINT8)data[i]) & 0xff]`.
The cast of the (possibly negative) `CHAR` to `UINT8` only contributes its low
eight bits after the `& 0xff` mask, so a byte value `< 256` models it exactly. -/
def crcByteStep (crc : ℕ) (b : ℕ) : ℕ :=
  (crc >>> 8) ^^^ (CRCTable.getD ((crc ^^^ b) % 256) 0)

/-- `calc_crc64(data, length, crc)`.  `data = none` models a NULL pointer.  The
guard `if (!length || !data) return crc` is translated literally; otherwise the
first `length` bytes of the buffer are folded through the byte step (callers
always pass `length` no larger than the buffer, reading further is undefined in
the source). -/
def calc_crc64 (data : Option (List ℕ)) (length : ℕ) (crc : ℕ) : ℕ :=
  match data with
  | none => crc
  | some l => if length = 0 then crc else (l.take length).foldl crcByteStep crc

/-- Convenience: CRC of a whole buffer, i.e. `calc_crc64(buf, buflen, crc)`. -/
def crcOf (l : List ℕ) (crc : ℕ) : ℕ :=
  calc_crc64 (some l) l.length crc

/-- The all-ones initial CRC seed `~(0ULL)`. -/
def crcInit : ℕ := 2 ^ 64 - 1

theorem crcOf_append (a b : List ℕ) (c : ℕ) :
    crcOf (a ++ b) c = crcOf b (crcOf a c) := by
  unfold crcOf calc_crc64
  rcases a with _ | ⟨x, xs⟩ <;> rcases b with _ | ⟨y, ys⟩ <;>
    simp [List.take_length, List.foldl_append]
  rw [List.take_of_length_le (by simp), List.foldl_append]
  rfl

/-- C9: the CRC64 engine treats the empty byte range as an identity: a NULL
buffer with any claimed length, and any buffer with length 0, leave the running
checksum unchanged, so accumulating an absent comment or zero padding never
changes the checksum. -/
theorem calc_crc64_empty_identity :
    (∀ (n crc : ℕ), calc_crc64 none n crc = crc) ∧
    (∀ (data : List ℕ) (crc : ℕ), calc_crc64 (some data) 0 crc = crc) := by
  constructor
  · intro n crc; rfl
  · intro data crc; simp [calc_crc64]

/-! ## Byte images of header fields

The CRC is computed over the raw bytes of the header struct.  Integer fields
are laid out little-endian (the machine convention of the platforms the file
format targets); `REAL8` fields enter only as their 8-byte in-memory image,
abstracted by a function `re8 : ℚ → List ℕ` (every theorem holds for every
choice of `re8`, since the reader re-computes the CRC over the same bytes). -/

/-- Little-endian byte image of an INT4 field (two's-complement wrap). -/
def int4bytes (z : ℤ) : List ℕ :=
  [(z % 2 ^ 32).toNat % 256, (z % 2 ^ 32).toNat / 256 % 256,
   (z % 2 ^ 32).toNat / 256 ^ 2 % 256, (z % 2 ^ 32).toNat / 256 ^ 3 % 256]

/-- Little-endian byte image of a UINT8 (64-bit) field. -/
def uint8bytes (n : ℕ) : List ℕ :=
  [n % 2 ^ 64 % 256, n % 2 ^ 64 / 256 % 256, n % 2 ^ 64 / 256 ^ 2 % 256,
   n % 2 ^ 64 / 256 ^ 3 % 256, n % 2 ^ 64 / 256 ^ 4 % 256, n % 2 ^ 64 / 256 ^ 5 % 256,
   n % 2 ^ 64 / 256 ^ 6 % 256, n % 2 ^ 64 / 256 ^ 7 % 256]

/-- The on-disk v2 SFT header record `_SFT_header_v2_t` (48 bytes, no padding
holes: REAL8, INT4, INT4, REAL8, INT4, INT4, UINT8, CHAR[2], CHAR[2], INT4). -/
structure SFT_header_v2 where
  version : ℚ
  gps_sec : ℤ
  gps_nsec : ℤ
  tbase : ℚ
  first_frequency_index : ℤ
  nsamples : ℤ
  crc64 : ℕ
  detector : ℕ × ℕ
  padding : ℕ × ℕ
  comment_length : ℤ
  deriving DecidableEq, Repr

/-- The byte image of the header record, in declaration order, exactly the
bytes `calc_crc64((const CHAR*)&rawheader, sizeof(rawheader), ...)` consumes. -/
def rawHeaderBytes (re8 : ℚ → List ℕ) (h : SFT_header_v2) : List ℕ :=
  re8 h.version ++ int4bytes h.gps_sec ++ int4bytes h.gps_nsec ++ re8 h.tbase ++
  int4bytes h.first_frequency_index ++ int4bytes h.nsamples ++ uint8bytes h.crc64 ++
  [h.detector.1, h.detector.2, h.padding.1, h.padding.2] ++
  int4bytes h.comment_length

/-! ## Detector validity, rounding helpers -/

/-- Modelled from the spec: `XLALIsValidCWDetector` is only declared in the
sources at hand (defined in a sibling module); per the spec (§4.1) the
detector code must be "one of the recognized set" of two-character codes; the
spec and the SFDB table name H1, L1 and V1, and G1/H2/K1/T1 are the remaining
CW detector prefixes. A valid CW detector name is exactly its two-character
prefix. -/
def validCWDetectorNames : List (List ℕ) :=
  [[71, 49], [72, 49], [72, 50], [75, 49], [76, 49], [84, 49], [86, 49]]

/-- Detector-name validity test used by writer, reader and catalog builder. -/
def XLALIsValidCWDetector (name : List ℕ) : Bool :=
  validCWDetectorNames.contains (name.take 2) && name.length = 2

/-- C library `lround`: round to nearest integer, ties away from zero. -/
def lroundQ (q : ℚ) : ℤ :=
  if 0 ≤ q then ⌊q + 1 / 2⌋ else -⌊1 / 2 - q⌋

/-- Modelled from the spec: `TSFTfromDFreq` is only declared in the sources at
hand (defined in a sibling module); per the spec (§3) the time baseline is the
reciprocal of the frequency spacing `deltaF` (the original merely snaps the
quotient to an integer when it is within ~10ε of one, a floating-point guard
that is the identity over exact rationals). -/
def TSFTfromDFreq (dFreq : ℚ) : ℚ := 1 / dFreq

/-! ## Writer (`XLALWriteSFT2fp`) -/

/-- In-memory SFT handed to the writer: detector-prefix name string, epoch,
start frequency, frequency spacing, and the payload as one raw 8-byte
COMPLEX8 sample per element. -/
structure SFTtype where
  name : List ℕ
  epoch : LIGOTimeGPS
  f0 : ℚ
  deltaF : ℚ
  data : List (List ℕ)
  deriving DecidableEq, Repr

/-- One stored SFT block as it sits in a file: the header record (which
`fwrite`/`fread` copy verbatim), then the comment bytes (string, terminator
and zero padding), then the payload bytes. -/
structure SFTFileBlock where
  rawheader : SFT_header_v2
  commentBytes : List ℕ
  payload : List ℕ
  deriving DecidableEq, Repr

/-- The comment string the writer stores: `sft->name`, then `"; "` and the
caller's comment when one was given. -/
def writerCommentChars (name : List ℕ) (SFTcomment : Option (List ℕ)) : List ℕ :=
  name ++ (match SFTcomment with | some c => [59, 32] ++ c | none => [])

/-- `strlen(_SFTcomment) + 1`: length of the stored comment string including
its NUL terminator. -/
def writerCommentLen (sft : SFTtype) (SFTcomment : Option (List ℕ)) : ℕ :=
  (writerCommentChars sft.name SFTcomment).length + 1

/-- `pad_len = (8 - (comment_len % 8)) % 8`: deterministic zero padding to a
multiple of eight bytes. -/
def writerPadLen (sft : SFTtype) (SFTcomment : Option (List ℕ)) : ℕ :=
  (8 - writerCommentLen sft SFTcomment % 8) % 8

/-- The raw header the writer fills out before the CRC is computed (checksum
field still zero). -/
def writerRawHeader0 (sft : SFTtype) (SFTcomment : Option (List ℕ)) : SFT_header_v2 :=
  { version := 2
    gps_sec := sft.epoch.gpsSeconds
    gps_nsec := sft.epoch.gpsNanoSeconds
    tbase := TSFTfromDFreq sft.deltaF
    first_frequency_index := lroundQ (sft.f0 / sft.deltaF)
    nsamples := (sft.data.length : ℤ)
    crc64 := 0
    detector := (sft.name.getD 0 0, sft.name.getD 1 0)
    padding := (0, 0)
    comment_length := (writerCommentLen sft SFTcomment : ℤ) +
      (writerPadLen sft SFTcomment : ℤ) }

/-- The writer's CRC accumulation: zeroed-checksum header bytes, then the
comment string with its terminator, then the padding, then the payload bytes
(`sft->data->length * sizeof(COMPLEX8)` of them). -/
def writerCRC (re8 : ℚ → List ℕ) (sft : SFTtype) (SFTcomment : Option (List ℕ)) : ℕ :=
  let hdrBytes := rawHeaderBytes re8 (writerRawHeader0 sft SFTcomment)
  let crc1 := calc_crc64 (some hdrBytes) hdrBytes.length crcInit
  let crc2 := calc_crc64 (some (writerCommentChars sft.name SFTcomment ++ [0]))
    (writerCommentLen sft SFTcomment) crc1
  let crc3 := calc_crc64 (some (List.replicate (writerPadLen sft SFTcomment) 0))
    (writerPadLen sft SFTcomment) crc2
  calc_crc64 (some sft.data.flatten) (sft.data.length * 8) crc3

/-- The comment bytes put into the file: string, NUL terminator, zero padding. -/
def writerCommentBytes (sft : SFTtype) (SFTcomment : Option (List ℕ)) : List ℕ :=
  writerCommentChars sft.name SFTcomment ++ [0] ++
    List.replicate (writerPadLen sft SFTcomment) 0

/-- `XLALWriteSFT2fp(sft, fp, SFTcomment)`: validates the SFT, builds the raw
v2 header, computes the CRC over (header with zeroed crc) + comment + padding +
payload, and writes header, comment, padding, payload. `fwrite` failures (EIO)
are not modelled; the result is the block of bytes put into the file. -/
def XLALWriteSFT2fp (re8 : ℚ → List ℕ) (sft : SFTtype)
    (SFTcomment : Option (List ℕ)) : Except Unit SFTFileBlock :=
  if sft.deltaF ≤ 0 ∨ sft.f0 < 0 ∨ sft.data.length = 0 then .error ()
  else if ¬ (0 ≤ sft.epoch.gpsSeconds ∧ 0 ≤ sft.epoch.gpsNanoSeconds) then .error ()
  else if ¬ (sft.epoch.gpsNanoSeconds < 1000000000) then .error ()
  else if ¬ XLALIsValidCWDetector sft.name then .error ()
  else
    .ok { rawheader := { writerRawHeader0 sft SFTcomment with
            crc64 := writerCRC re8 sft SFTcomment }
          commentBytes := writerCommentBytes sft SFTcomment
          payload := sft.data.flatten }

/-! ## Header readers -/

/-- Header part of a decoded SFT (the `SFTtype` fields `read_v2_header_from_fp`
fills: 2-character name, epoch, `f0 = first_frequency_index/tbase`,
`deltaF = 1/tbase`). -/
structure SFTHeaderOut where
  name : List ℕ
  epoch : LIGOTimeGPS
  f0 : ℚ
  deltaF : ℚ
  deriving DecidableEq, Repr

/-- Everything `read_v2_header_from_fp` returns through its out-parameters. -/
structure ReadV2Out where
  header : SFTHeaderOut
  nsamples : ℕ
  header_crc64 : ℕ
  ref_crc64 : ℕ
  SFTcomment : Option (List ℕ)
  deriving DecidableEq, Repr

/-- `read_v2_header_from_fp` on the native-endian path (`swapEndian = FALSE`):
input is the header record the `fread` copied plus the bytes that follow it in
the file. The CRC of the header is computed with the stored checksum field
zeroed, then extended over the comment string and its padding re-derived from
the comment's `strlen`. The returned comment is the stored C string (the bytes
up to its first NUL); the source returns the full buffer, which as a C string
is that same prefix. -/
def read_v2_header_from_fp (re8 : ℚ → List ℕ) (raw : SFT_header_v2)
    (rest : List ℕ) : Except Unit ReadV2Out :=
  let crc0 := crcOf (rawHeaderBytes re8 { raw with crc64 := 0 }) crcInit
  let hdr : SFTHeaderOut :=
    { name := [raw.detector.1, raw.detector.2]
      epoch := { gpsSeconds := raw.gps_sec, gpsNanoSeconds := raw.gps_nsec }
      f0 := (raw.first_frequency_index : ℚ) / raw.tbase
      deltaF := 1 / raw.tbase }
  if raw.version ≠ 2 then .error ()
  else if raw.nsamples ≤ 0 then .error ()
  else if raw.comment_length < 0 then .error ()
  else if raw.comment_length % 8 ≠ 0 then .error ()
  else if ¬ XLALIsValidCWDetector [raw.detector.1, raw.detector.2] then .error ()
  else if raw.comment_length = 0 then
    .ok { header := hdr, nsamples := raw.nsamples.toNat, header_crc64 := crc0
          ref_crc64 := raw.crc64, SFTcomment := none }
  else
    let clen := raw.comment_length.toNat
    if rest.length < clen then .error ()
    else
      let comm := rest.take clen
      if comm.getLast? ≠ some 0 then .error ()
      else if ¬ (comm.dropWhile (· ≠ 0)).all (· = 0) then .error ()
      else
        let commentStr := comm.takeWhile (· ≠ 0)
        let comment_len := commentStr.length + 1
        let pad_len := (8 - comment_len % 8) % 8
        let crc1 := calc_crc64 (some (commentStr ++ [0])) comment_len crc0
        let crc2 := calc_crc64 (some (List.replicate pad_len 0)) pad_len crc1
        .ok { header := hdr, nsamples := raw.nsamples.toNat, header_crc64 := crc2
              ref_crc64 := raw.crc64, SFTcomment := some commentStr }

/-- `read_SFTversion_from_fp` on the native-endian path: the stored version tag
must bit-match a supported version (2 is the only one); the byte-swapped probe
of the scan concerns cross-endian files and is not modelled. -/
def read_SFTversion_from_fp (raw : SFT_header_v2) : Except Unit (ℕ × Bool) :=
  if raw.version = 2 then .ok (2, false) else .error ()

/-- Everything `read_sft_header_from_fp` returns through its out-parameters. -/
structure ReadHeaderOut where
  header : SFTHeaderOut
  version : ℕ
  crc64 : ℕ
  swapEndian : Bool
  SFTcomment : Option (List ℕ)
  numBins : ℕ
  deriving DecidableEq, Repr

/-- `read_sft_header_from_fp`: version probe, version-specific decode, then the
general header consistency checks (epoch well-formed, `deltaF > 0`, `f0 ≥ 0`). -/
def read_sft_header_from_fp (re8 : ℚ → List ℕ) (raw : SFT_header_v2)
    (rest : List ℕ) : Except Unit ReadHeaderOut :=
  (read_SFTversion_from_fp raw).bind fun vs =>
    if vs.1 = 2 then
      (read_v2_header_from_fp re8 raw rest).bind fun out =>
        if out.header.epoch.gpsSeconds < 0 ∨ out.header.epoch.gpsNanoSeconds < 0 ∨
            1000000000 ≤ out.header.epoch.gpsNanoSeconds then .error ()
        else if out.header.deltaF ≤ 0 then .error ()
        else if out.header.f0 < 0 then .error ()
        else .ok { header := out.header, version := vs.1, crc64 := out.ref_crc64
                   swapEndian := vs.2, SFTcomment := out.SFTcomment
                   numBins := out.nsamples }
    else .error ()

/-- `has_valid_v2_crc64`: BOOLEAN in name but `-1` on probe errors, `0`/`1`
otherwise, exactly as the source's return statements. The payload CRC is
accumulated over the payload bytes; the source does so in `BLOCKSIZE` chunks,
which by `crcOf_append` equals the single fold used here. -/
def has_valid_v2_crc64 (re8 : ℚ → List ℕ) (raw : SFT_header_v2)
    (rest : List ℕ) : ℤ :=
  match read_SFTversion_from_fp raw with
  | .error () => -1
  | .ok vs =>
    if vs.1 ≠ 2 then -1
    else
      match read_v2_header_from_fp re8 raw rest with
      | .error () => 0
      | .ok out =>
        let data_len := out.nsamples * 8
        let payload := rest.drop raw.comment_length.toNat
        if payload.length < data_len then 0
        else
          let computed := crcOf (payload.take data_len) out.header_crc64
          if computed = out.ref_crc64 then 1 else 0

/-! ## Catalog CRC validation (`XLALCheckCRCSFTCatalog`) -/

/-- A catalog entry as the CRC checker sees it: the recorded format version and
the file block at the entry's locator (the claim's "readable file" premise is
built in: `fopen_SFTLocator` succeeds and yields these bytes). -/
structure CrcCatalogEntry where
  version : ℕ
  raw : SFT_header_v2
  rest : List ℕ

/-- `XLALCheckCRCSFTCatalog`: `.ok b` models XLAL_SUCCESS with `*crc_check = b`,
`.error ()` models XLAL_FAILURE. Version-1 entries are skipped (v1 had no CRC);
the first failed v2 checksum short-circuits with success status and flag 0;
any other version is an illegal-version failure. -/
def XLALCheckCRCSFTCatalog (re8 : ℚ → List ℕ) :
    List CrcCatalogEntry → Except Unit Bool
  | [] => .ok true
  | e :: es =>
    match e.version with
    | 1 => XLALCheckCRCSFTCatalog re8 es
    | 2 =>
      if ¬ (has_valid_v2_crc64 re8 e.raw e.rest ≠ 0) then .ok false
      else XLALCheckCRCSFTCatalog re8 es
    | _ => .error ()

/-! ## Helper lemmas for the writer/reader round trip -/

theorem lroundQ_natCast (k : ℕ) : lroundQ (k : ℚ) = k := by
  unfold lroundQ
  rw [if_pos (by positivity)]
  rw [Int.floor_eq_iff]
  constructor
  · push_cast; linarith
  · push_cast; linarith

theorem validDetector_shape {name : List ℕ} (h : XLALIsValidCWDetector name = true) :
    name ∈ validCWDetectorNames := by
  unfold XLALIsValidCWDetector at h
  rw [Bool.and_eq_true] at h
  obtain ⟨hmem, hlen⟩ := h
  simp only [List.contains_eq_any_beq, List.any_eq_true, beq_iff_eq] at hmem
  obtain ⟨x, hx, hxe⟩ := hmem
  rw [List.take_of_length_le (by simp at hlen; omega)] at hxe
  rw [hxe]
  exact hx

theorem validDetector_noZero {name : List ℕ} (h : XLALIsValidCWDetector name = true) :
    (0 : ℕ) ∉ name := by
  have := validDetector_shape h
  unfold validCWDetectorNames at this
  simp only [List.mem_cons, List.not_mem_nil, or_false] at this
  rcases this with h | h | h | h | h | h | h <;> subst h <;> decide

theorem validDetector_pair {name : List ℕ} (h : XLALIsValidCWDetector name = true) :
    name = [name.getD 0 0, name.getD 1 0] := by
  have := validDetector_shape h
  unfold validCWDetectorNames at this
  simp only [List.mem_cons, List.not_mem_nil, or_false] at this
  rcases this with h | h | h | h | h | h | h <;> subst h <;> rfl

theorem takeWhile_append_stop {xs ys : List ℕ} (hx : ∀ x ∈ xs, x ≠ 0) :
    List.takeWhile (· ≠ 0) (xs ++ 0 :: ys) = xs := by
  induction xs with
  | nil => simp [List.takeWhile]
  | cons a l ih =>
    have ha : decide (a ≠ 0) = true := by simpa using hx a (List.mem_cons_self a l)
    simp only [List.cons_append, List.takeWhile, ha, List.append_eq]
    rw [ih (fun x hx2 => hx x (List.mem_cons_of_mem a hx2))]

theorem dropWhile_append_stop {xs ys : List ℕ} (hx : ∀ x ∈ xs, x ≠ 0) :
    List.dropWhile (· ≠ 0) (xs ++ 0 :: ys) = 0 :: ys := by
  induction xs with
  | nil => simp [List.dropWhile]
  | cons a l ih =>
    have ha : decide (a ≠ 0) = true := by simpa using hx a (List.mem_cons_self a l)
    simp only [List.cons_append, List.dropWhile, ha, List.append_eq]
    exact ih (fun x hx2 => hx x (List.mem_cons_of_mem a hx2))

theorem getLast_append_zero_pad (xs : List ℕ) (p : ℕ) :
    (xs ++ 0 :: List.replicate p 0).getLast? = some 0 := by
  have h1 : (0 : ℕ) :: List.replicate p 0 = List.replicate p 0 ++ [0] := by
    rw [← List.replicate_succ, List.replicate_succ']
  rw [h1, ← List.append_assoc]
  simp

theorem flatten_length_of_uniform {data : List (List ℕ)}
    (h : ∀ s ∈ data, s.length = 8) : data.flatten.length = data.length * 8 := by
  induction data with
  | nil => simp
  | cons a l ih =>
    simp only [List.flatten_cons, List.length_append, List.length_cons]
    rw [h a (List.mem_cons_self a l), ih (fun s hs => h s (List.mem_cons_of_mem a hs))]
    ring

theorem comment_pad_mod (n : ℕ) :
    ((n : ℤ) + (((8 - n % 8) % 8 : ℕ) : ℤ)) % 8 = 0 := by
  push_cast
  omega

theorem read_v2_ok (re8 : ℚ → List ℕ) (raw : SFT_header_v2)
    (chars tail : List ℕ) (p : ℕ)
    (hv : raw.version = 2) (hns : 0 < raw.nsamples)
    (hp : p = (8 - (chars.length + 1) % 8) % 8)
    (hcl : raw.comment_length = ((chars.length + 1 + p : ℕ) : ℤ))
    (hdet : XLALIsValidCWDetector [raw.detector.1, raw.detector.2] = true)
    (hchars : ∀ x ∈ chars, x ≠ 0) :
    read_v2_header_from_fp re8 raw ((chars ++ [0] ++ List.replicate p 0) ++ tail) =
      .ok { header := { name := [raw.detector.1, raw.detector.2]
                        epoch := { gpsSeconds := raw.gps_sec, gpsNanoSeconds := raw.gps_nsec }
                        f0 := (raw.first_frequency_index : ℚ) / raw.tbase
                        deltaF := 1 / raw.tbase }
            nsamples := raw.nsamples.toNat
            header_crc64 := crcOf (List.replicate p 0) (crcOf (chars ++ [0])
              (crcOf (rawHeaderBytes re8 { raw with crc64 := 0 }) crcInit))
            ref_crc64 := raw.crc64
            SFTcomment := some chars } := by
  have hblock : (chars ++ [0] ++ List.replicate p 0) = chars ++ (0 :: List.replicate p 0) := by
    simp
  have hblen : (chars ++ [0] ++ List.replicate p 0).length = chars.length + 1 + p := by
    simp [Nat.add_assoc, Nat.add_comm p 1]
  unfold read_v2_header_from_fp
  rw [if_neg (by rw [hv]; exact fun h => h rfl)]
  rw [if_neg (by omega)]
  rw [if_neg (by rw [hcl]; push_cast; omega)]
  rw [if_neg (by
    rw [hcl, hp]
    intro hmod
    exact hmod (comment_pad_mod (chars.length + 1)))]
  rw [if_neg (by rw [hdet]; exact fun h => h rfl)]
  rw [if_neg (by rw [hcl]; push_cast; omega)]
  have htn : raw.comment_length.toNat = chars.length + 1 + p := by rw [hcl]; omega
  rw [htn]
  have htake : ((chars ++ [0] ++ List.replicate p 0) ++ tail).take (chars.length + 1 + p) =
      chars ++ [0] ++ List.replicate p 0 := by
    rw [← hblen]
    exact List.take_left _ _
  have hlenge : ¬ (((chars ++ [0] ++ List.replicate p 0) ++ tail).length <
      chars.length + 1 + p) := by
    simp only [List.length_append, hblen]
    omega
  rw [if_neg hlenge, htake]
  rw [if_neg (by
    rw [hblock, getLast_append_zero_pad]
    exact fun h => h rfl)]
  rw [if_neg (by
    rw [hblock, dropWhile_append_stop hchars]
    intro hcon
    refine hcon ?_
    rw [List.all_eq_true]
    intro a ha
    rcases List.mem_cons.mp ha with h | h
    · simpa using h
    · simpa using List.eq_of_mem_replicate h)]
  rw [hblock, takeWhile_append_stop hchars]
  simp only [crcOf, List.length_append, List.length_replicate, List.length_cons,
    List.length_nil, ← hp]

theorem calc_crc64_eq_crcOf (l : List ℕ) (n cc : ℕ) (h : n = l.length) :
    calc_crc64 (some l) n cc = crcOf l cc := by
  rw [h]; rfl

theorem has_valid_of (re8 : ℚ → List ℕ) (raw : SFT_header_v2)
    (chars tail : List ℕ) (p : ℕ)
    (hv : raw.version = 2) (hns : 0 < raw.nsamples)
    (hp : p = (8 - (chars.length + 1) % 8) % 8)
    (hcl : raw.comment_length = ((chars.length + 1 + p : ℕ) : ℤ))
    (hdet : XLALIsValidCWDetector [raw.detector.1, raw.detector.2] = true)
    (hchars : ∀ x ∈ chars, x ≠ 0)
    (htail : tail.length = raw.nsamples.toNat * 8)
    (hcrc : crcOf tail (crcOf (List.replicate p 0) (crcOf (chars ++ [0])
      (crcOf (rawHeaderBytes re8 { raw with crc64 := 0 }) crcInit))) = raw.crc64) :
    has_valid_v2_crc64 re8 raw ((chars ++ [0] ++ List.replicate p 0) ++ tail) = 1 := by
  unfold has_valid_v2_crc64
  rw [show read_SFTversion_from_fp raw = .ok (2, false) from by
    rw [read_SFTversion_from_fp, if_pos hv]]
  simp only [ne_eq, reduceCtorEq, not_true_eq_false, reduceIte]
  rw [read_v2_ok re8 raw chars tail p hv hns hp hcl hdet hchars]
  have hblen : (chars ++ [0] ++ List.replicate p 0).length = chars.length + 1 + p := by
    simp [Nat.add_assoc, Nat.add_comm p 1]
  have htn : raw.comment_length.toNat = (chars ++ [0] ++ List.replicate p 0).length := by
    rw [hcl, hblen]; omega
  simp only [htn, List.drop_left]
  rw [if_neg (by rw [htail]; omega)]
  rw [show tail.take (raw.nsamples.toNat * 8) = tail from by
    rw [← htail]; exact List.take_length _]
  rw [if_pos hcrc]

theorem writeSFT_decode_core (re8 : ℚ → List ℕ) (sft : SFTtype) (c : Option (List ℕ))
    (hdet : XLALIsValidCWDetector sft.name = true)
    (hdf : 0 < sft.deltaF)
    (k : ℕ) (hf0 : sft.f0 = (k : ℚ) * sft.deltaF)
    (hdata : sft.data ≠ [])
    (hsamp : ∀ s ∈ sft.data, s.length = 8)
    (hsec : 0 ≤ sft.epoch.gpsSeconds) (hnsl : 0 ≤ sft.epoch.gpsNanoSeconds)
    (hnsu : sft.epoch.gpsNanoSeconds < 1000000000)
    (hc0 : ∀ s, c = some s → (0 : ℕ) ∉ s) :
    ∃ blk out,
      XLALWriteSFT2fp re8 sft c = .ok blk ∧
      read_v2_header_from_fp re8 blk.rawheader (blk.commentBytes ++ blk.payload) = .ok out ∧
      out.header.name = sft.name ∧ out.header.epoch = sft.epoch ∧
      out.header.deltaF = sft.deltaF ∧ out.header.f0 = sft.f0 ∧
      out.nsamples = sft.data.length ∧
      out.SFTcomment = some (writerCommentChars sft.name c) ∧
      out.ref_crc64 = blk.rawheader.crc64 ∧
      has_valid_v2_crc64 re8 blk.rawheader (blk.commentBytes ++ blk.payload) = 1 := by
  have hlen0 : sft.data.length ≠ 0 := fun h => hdata (List.length_eq_zero.mp h)
  have hf0nn : 0 ≤ sft.f0 := by rw [hf0]; positivity
  have hflat : sft.data.flatten.length = sft.data.length * 8 :=
    flatten_length_of_uniform hsamp
  have hpair := validDetector_pair hdet
  have hnz := validDetector_noZero hdet
  have hwrite : XLALWriteSFT2fp re8 sft c =
      .ok { rawheader := { writerRawHeader0 sft c with crc64 := writerCRC re8 sft c }
            commentBytes := writerCommentBytes sft c
            payload := sft.data.flatten } := by
    unfold XLALWriteSFT2fp
    rw [if_neg (by push_neg; exact ⟨hdf, hf0nn, hlen0⟩)]
    rw [if_neg (not_not_intro ⟨hsec, hnsl⟩)]
    rw [if_neg (not_not_intro hnsu)]
    rw [if_neg (not_not_intro hdet)]
  have hchars : ∀ x ∈ writerCommentChars sft.name c, x ≠ 0 := by
    intro x hx
    unfold writerCommentChars at hx
    rw [List.mem_append] at hx
    rcases hx with hx | hx
    · exact fun h0 => hnz (h0 ▸ hx)
    · match c with
      | none => simp at hx
      | some s =>
        simp only [List.cons_append, List.nil_append, List.mem_cons] at hx
        rcases hx with h | h | h
        · omega
        · omega
        · exact fun h0 => (hc0 s rfl) (h0 ▸ h)
  have hdet2 : XLALIsValidCWDetector [sft.name.getD 0 0, sft.name.getD 1 0] = true := by
    rw [← hpair]; exact hdet
  have hnspos : (0 : ℤ) < ({ writerRawHeader0 sft c with
      crc64 := writerCRC re8 sft c } : SFT_header_v2).nsamples := by
    show (0 : ℤ) < (sft.data.length : ℤ)
    exact_mod_cast Nat.pos_of_ne_zero hlen0
  have hcl2 : ({ writerRawHeader0 sft c with
      crc64 := writerCRC re8 sft c } : SFT_header_v2).comment_length =
      (((writerCommentChars sft.name c).length + 1 + writerPadLen sft c : ℕ) : ℤ) := by
    show (writerCommentLen sft c : ℤ) + (writerPadLen sft c : ℤ) = _
    unfold writerCommentLen
    push_cast
    ring
  have hread := read_v2_ok re8
    { writerRawHeader0 sft c with crc64 := writerCRC re8 sft c }
    (writerCommentChars sft.name c) sft.data.flatten (writerPadLen sft c)
    rfl hnspos rfl hcl2 hdet2 hchars
  have hq : sft.f0 / sft.deltaF = (k : ℚ) := by
    rw [hf0]
    field_simp
  have hwcrc : writerCRC re8 sft c =
      crcOf sft.data.flatten (crcOf (List.replicate (writerPadLen sft c) 0)
        (crcOf (writerCommentChars sft.name c ++ [0])
          (crcOf (rawHeaderBytes re8 (writerRawHeader0 sft c)) crcInit))) := by
    simp only [writerCRC]
    rw [calc_crc64_eq_crcOf (rawHeaderBytes re8 (writerRawHeader0 sft c)) _ _ rfl]
    rw [calc_crc64_eq_crcOf (writerCommentChars sft.name c ++ [0]) _ _
      (by simp [writerCommentLen])]
    rw [calc_crc64_eq_crcOf (List.replicate (writerPadLen sft c) 0) _ _ (by simp)]
    rw [calc_crc64_eq_crcOf sft.data.flatten _ _ hflat.symm]
  refine ⟨_, _, hwrite, hread, ?_, rfl, ?_, ?_, ?_, rfl, rfl, ?_⟩
  · exact hpair.symm
  · exact one_div_one_div sft.deltaF
  · show (lroundQ (sft.f0 / sft.deltaF) : ℚ) / TSFTfromDFreq sft.deltaF = sft.f0
    rw [hq, lroundQ_natCast]
    unfold TSFTfromDFreq
    rw [div_eq_mul_inv, one_div, inv_inv]
    push_cast
    rw [← hf0]
  · show ((sft.data.length : ℤ)).toNat = sft.data.length
    omega
  · refine has_valid_of re8 _ _ _ _ rfl hnspos rfl hcl2 hdet2 hchars ?_ ?_
    · show sft.data.flatten.length = ((sft.data.length : ℤ)).toNat * 8
      rw [hflat]
      omega
    · exact hwcrc.symm

/-- A fixed choice of the `REAL8` byte-image function for concrete evaluations
(any function works for the theorems; witnesses need one definite choice). -/
def re8zero : ℚ → List ℕ := fun _ => List.replicate 8 0

/-- A small concrete SFT used in concrete evaluations: detector H1, epoch
1000000000, `f0 = 10`, `deltaF = 1` (an integral spacing keeps every rational
comparison kernel-computable), one payload sample. -/
def sampleSFT : SFTtype :=
  { name := [72, 49]
    epoch := { gpsSeconds := 1000000000, gpsNanoSeconds := 0 }
    f0 := 10
    deltaF := 1
    data := [[1, 0, 0, 0, 0, 0, 0, 0]] }

/-- C1 (counterexample): the round trip is NOT the identity on the comment
string: writing `sampleSFT` with caller comment `"x"` and decoding the written
bytes yields the comment `"H1; x"` (byte list `[72,49,59,32,120]`), not the
original `"x"` (`[120]`), so `decode(encode(x)) = x` fails bit-for-bit on the
comment component. -/
theorem writeSFT2fp_roundtrip_counterexample :
    ((XLALWriteSFT2fp re8zero sampleSFT (some [120])).bind fun blk =>
      (read_v2_header_from_fp re8zero blk.rawheader
        (blk.commentBytes ++ blk.payload)).map fun out => out.SFTcomment)
      = .ok (some [72, 49, 59, 32, 120]) ∧
    some ([72, 49, 59, 32, 120] : List ℕ) ≠ some ([120] : List ℕ) := by
  exact ⟨rfl, by decide⟩

/-- C1 (amended): for every validly constructed SFT (valid 2-character detector
name, positive `deltaF`, `f0` an exact bin multiple of `deltaF`, nonempty
payload of 8-byte samples, well-formed epoch, NUL-free comment), writing it
with `XLALWriteSFT2fp` and decoding the written bytes with
`read_v2_header_from_fp` recovers the detector name, epoch, `deltaF`, `f0` and
sample count exactly, returns the stored checksum unchanged, validates the
checksum (`has_valid_v2_crc64 = 1`), and returns as comment the detector name
followed by `"; "` and the caller's comment — not the caller's comment
verbatim. -/
theorem writeSFT2fp_decode_roundtrip (re8 : ℚ → List ℕ) (sft : SFTtype)
    (c : Option (List ℕ))
    (hdet : XLALIsValidCWDetector sft.name = true)
    (hdf : 0 < sft.deltaF)
    (k : ℕ) (hf0 : sft.f0 = (k : ℚ) * sft.deltaF)
    (hdata : sft.data ≠ [])
    (hsamp : ∀ s ∈ sft.data, s.length = 8)
    (hsec : 0 ≤ sft.epoch.gpsSeconds) (hnsl : 0 ≤ sft.epoch.gpsNanoSeconds)
    (hnsu : sft.epoch.gpsNanoSeconds < 1000000000)
    (hc0 : ∀ s, c = some s → (0 : ℕ) ∉ s) :
    ∃ blk out,
      XLALWriteSFT2fp re8 sft c = .ok blk ∧
      read_v2_header_from_fp re8 blk.rawheader (blk.commentBytes ++ blk.payload) = .ok out ∧
      out.header.name = sft.name ∧ out.header.epoch = sft.epoch ∧
      out.header.deltaF = sft.deltaF ∧ out.header.f0 = sft.f0 ∧
      out.nsamples = sft.data.length ∧
      out.SFTcomment = some (writerCommentChars sft.name c) ∧
      out.ref_crc64 = blk.rawheader.crc64 ∧
      has_valid_v2_crc64 re8 blk.rawheader (blk.commentBytes ++ blk.payload) = 1 :=
  writeSFT_decode_core re8 sft c hdet hdf k hf0 hdata hsamp hsec hnsl hnsu hc0

/-- Witness for C1: the amended round trip at the concrete `sampleSFT` with
comment `"x"`, all hypotheses discharged by computation. -/
theorem writeSFT2fp_decode_roundtrip_witness :
    ∃ blk out,
      XLALWriteSFT2fp re8zero sampleSFT (some [120]) = .ok blk ∧
      read_v2_header_from_fp re8zero blk.rawheader (blk.commentBytes ++ blk.payload) = .ok out ∧
      out.header.name = sampleSFT.name ∧ out.header.epoch = sampleSFT.epoch ∧
      out.header.deltaF = sampleSFT.deltaF ∧ out.header.f0 = sampleSFT.f0 ∧
      out.nsamples = sampleSFT.data.length ∧
      out.SFTcomment = some (writerCommentChars sampleSFT.name (some [120])) ∧
      out.ref_crc64 = blk.rawheader.crc64 ∧
      has_valid_v2_crc64 re8zero blk.rawheader (blk.commentBytes ++ blk.payload) = 1 :=
  writeSFT2fp_decode_roundtrip re8zero sampleSFT (some [120]) (by decide)
    (by norm_num [sampleSFT]) 10 (by norm_num [sampleSFT]) (by decide) (by decide)
    (by decide) (by decide) (by decide)
    (by intro s hs; cases hs; decide)

/-- The comment string stored in a written file block, read as a C string
(bytes up to the first NUL). -/
def storedComment (blk : SFTFileBlock) : List ℕ :=
  blk.commentBytes.takeWhile (· ≠ 0)

/-- C10: for every SFT successfully written by `XLALWriteSFT2fp`, the comment
field stored in the file is the SFT's detector name, followed by `"; "` and
the caller's comment when one is given; it always begins with the detector
name, and a caller-supplied comment is never stored verbatim. -/
theorem writeSFT2fp_comment_prefixed (re8 : ℚ → List ℕ) (sft : SFTtype)
    (c : Option (List ℕ)) (blk : SFTFileBlock)
    (h : XLALWriteSFT2fp re8 sft c = .ok blk)
    (hc0 : ∀ s, c = some s → (0 : ℕ) ∉ s) :
    storedComment blk = writerCommentChars sft.name c ∧
    (storedComment blk).take sft.name.length = sft.name ∧
    ∀ s, c = some s → storedComment blk ≠ s := by
  unfold XLALWriteSFT2fp at h
  split_ifs at h with hg1 hg2 hg3 hg4
  have hdet : XLALIsValidCWDetector sft.name = true := hg4
  have hnz := validDetector_noZero hdet
  have hlen2 : sft.name.length = 2 := by
    have hm := validDetector_shape hdet
    unfold validCWDetectorNames at hm
    simp only [List.mem_cons, List.not_mem_nil, or_false] at hm
    rcases hm with hv | hv | hv | hv | hv | hv | hv <;> simp [hv]
  have hblk : blk = ⟨{ writerRawHeader0 sft c with crc64 := writerCRC re8 sft c }, writerCommentBytes sft c, sft.data.flatten⟩ := (Except.ok.inj h).symm
  have hchars : ∀ x ∈ writerCommentChars sft.name c, x ≠ 0 := by
    intro x hx
    unfold writerCommentChars at hx
    rw [List.mem_append] at hx
    rcases hx with hx | hx
    · exact fun h0 => hnz (h0 ▸ hx)
    · match c with
      | none => simp at hx
      | some s =>
        simp only [List.cons_append, List.nil_append, List.mem_cons] at hx
        rcases hx with h | h | h
        · omega
        · omega
        · exact fun h0 => (hc0 s rfl) (h0 ▸ h)
  have hstored : storedComment blk = writerCommentChars sft.name c := by
    rw [hblk]
    show (writerCommentBytes sft c).takeWhile (· ≠ 0) = _
    unfold writerCommentBytes
    rw [show writerCommentChars sft.name c ++ [0] ++
        List.replicate (writerPadLen sft c) 0 =
        writerCommentChars sft.name c ++
        (0 :: List.replicate (writerPadLen sft c) 0) by simp]
    exact takeWhile_append_stop hchars
  refine ⟨hstored, ?_, ?_⟩
  · rw [hstored]
    unfold writerCommentChars
    exact List.take_left _ _
  · intro s hs
    rw [hstored, hs]
    unfold writerCommentChars
    intro heq
    have := congrArg List.length heq
    simp only [List.length_append, List.cons_append, List.length_cons] at this
    omega

/-- Witness for C10: the concrete `sampleSFT` written with comment `"x"`
stores the comment `"H1; x"`, which begins with `"H1"` and differs from
`"x"`. -/
theorem writeSFT2fp_comment_prefixed_witness :
    ∃ blk, XLALWriteSFT2fp re8zero sampleSFT (some [120]) = .ok blk ∧
      storedComment blk = writerCommentChars sampleSFT.name (some [120]) ∧
      (storedComment blk).take sampleSFT.name.length = sampleSFT.name ∧
      ∀ s, (some [120] : Option (List ℕ)) = some s → storedComment blk ≠ s := by
  obtain ⟨blk, hblk⟩ :
      ∃ blk, XLALWriteSFT2fp re8zero sampleSFT (some [120]) = .ok blk := ⟨_, rfl⟩
  have h := writeSFT2fp_comment_prefixed re8zero sampleSFT (some [120]) blk hblk
    (by intro s hs; cases hs; decide)
  exact ⟨blk, hblk, h.1, h.2.1, h.2.2⟩

/-- C6: checksum validation reports mismatch as a boolean result, not an
error: for every catalog of readable v1/v2 SFT files, `XLALCheckCRCSFTCatalog`
returns success status, and the output flag `crc_check` is true exactly when
every v2 entry's checksum validates. -/
theorem checkCRCSFTCatalog_soft (re8 : ℚ → List ℕ) (catalog : List CrcCatalogEntry)
    (hver : ∀ e ∈ catalog, e.version = 1 ∨ e.version = 2) :
    ∃ b, XLALCheckCRCSFTCatalog re8 catalog = .ok b ∧
      (b = true ↔ ∀ e ∈ catalog, e.version = 2 →
        has_valid_v2_crc64 re8 e.raw e.rest ≠ 0) := by
  induction catalog with
  | nil => exact ⟨true, rfl, by simp⟩
  | cons e es ih =>
    obtain ⟨b, hb, hiff⟩ := ih (fun x hx => hver x (List.mem_cons_of_mem e hx))
    rcases hver e (List.mem_cons_self e es) with h1 | h2
    · refine ⟨b, ?_, ?_⟩
      · rw [XLALCheckCRCSFTCatalog, h1]
        exact hb
      · rw [hiff]
        constructor
        · intro hall x hx hx2
          rcases List.mem_cons.mp hx with h | h
          · exact absurd (h ▸ hx2) (by rw [h1]; decide)
          · exact hall x h hx2
        · intro hall x hx hx2
          exact hall x (List.mem_cons_of_mem e hx) hx2
    · by_cases hval : has_valid_v2_crc64 re8 e.raw e.rest ≠ 0
      · refine ⟨b, ?_, ?_⟩
        · rw [XLALCheckCRCSFTCatalog, h2]
          rw [if_neg (not_not_intro hval)]
          exact hb
        · rw [hiff]
          constructor
          · intro hall x hx hx2
            rcases List.mem_cons.mp hx with h | h
            · exact h ▸ hval
            · exact hall x h hx2
          · intro hall x hx hx2
            exact hall x (List.mem_cons_of_mem e hx) hx2
      · refine ⟨false, ?_, ?_⟩
        · rw [XLALCheckCRCSFTCatalog, h2]
          rw [if_pos hval]
        · simp only [Bool.false_eq_true, false_iff]
          intro hall
          exact hval (hall e (List.mem_cons_self e es) h2)

/-- A trivial one-entry version-1 CRC catalog for concrete evaluation. -/
def crcV1entry : CrcCatalogEntry :=
  ⟨1, ⟨0, 0, 0, 0, 0, 0, 0, (0, 0), (0, 0), 0⟩, []⟩

/-- Witness for C6: a one-entry version-1 catalog (v1 has no CRC) passes with
success status and flag true. -/
theorem checkCRCSFTCatalog_soft_witness :
    ∃ b, XLALCheckCRCSFTCatalog re8zero [crcV1entry] = .ok b ∧
      (b = true ↔ ∀ e ∈ [crcV1entry], e.version = 2 →
        has_valid_v2_crc64 re8zero e.raw e.rest ≠ 0) :=
  checkCRCSFTCatalog_soft re8zero _ (by decide)

/-! ## Catalog builder (`XLALSFTdataFind`) -/

/-- `XLALCWGPSinRange(gps, minGPS, maxGPS)`: -1 below, 0 within the half-open
interval `[minGPS, maxGPS)`, 1 above; NULL bounds mean -infinity/+infinity. -/
def XLALCWGPSinRange (gps : LIGOTimeGPS) (minGPS maxGPS : Option LIGOTimeGPS) : ℤ :=
  if (match minGPS with
      | some m => decide (GPS2REAL8 gps < GPS2REAL8 m)
      | none => false) then -1
  else if (match maxGPS with
      | some m => decide (GPS2REAL8 m ≤ GPS2REAL8 gps)
      | none => false) then 1
  else 0

/-- `timestamp_in_list`: exact (seconds, nanoseconds) membership. -/
def timestamp_in_list (timestamp : LIGOTimeGPS) (list : List LIGOTimeGPS) : Bool :=
  list.any fun el => decide (timestamp.gpsSeconds = el.gpsSeconds ∧
    timestamp.gpsNanoSeconds = el.gpsNanoSeconds)

/-- `consistent_mSFT_header`: the merged-SFT consistency constraints between
two consecutive blocks of one file: identical detector (both name characters),
identical version, strictly increasing GPS epochs, identical time baselines
(`deltaF`), identical start frequencies, identical sample counts. -/
def consistent_mSFT_header (header1 : SFTHeaderOut) (version1 nsamples1 : ℕ)
    (header2 : SFTHeaderOut) (version2 nsamples2 : ℕ) : Bool :=
  decide (header1.name.getD 0 0 = header2.name.getD 0 0 ∧
    header1.name.getD 1 0 = header2.name.getD 1 0) &&
  decide (version1 = version2) &&
  decide (GPS2REAL8 header1.epoch < GPS2REAL8 header2.epoch) &&
  decide (header1.deltaF = header2.deltaF) &&
  decide (header1.f0 = header2.f0) &&
  decide (nsamples1 = nsamples2)

/-- User constraints of the catalog builder (each optional, combined by AND). -/
structure SFTConstraints where
  detector : Option (List ℕ)
  minStartTime : Option LIGOTimeGPS
  maxStartTime : Option LIGOTimeGPS
  timestamps : Option (List LIGOTimeGPS)

/-- A catalog descriptor: decoded header + comment + counts + CRC + locator
(file name and the index of the block within the file, standing for the byte
offset). -/
structure SFTDescriptor where
  header : SFTHeaderOut
  comment : Option (List ℕ)
  numBins : ℕ
  version : ℕ
  crc64 : ℕ
  locatorFname : List ℕ
  locatorOffset : ℕ
  deriving DecidableEq, Repr

/-- `compareSFTdesc`: order descriptors by GPS epoch (as REAL8), then by start
frequency. -/
def compareSFTdesc (d1 d2 : SFTDescriptor) : ℤ :=
  if GPS2REAL8 d1.header.epoch < GPS2REAL8 d2.header.epoch then -1
  else if GPS2REAL8 d2.header.epoch < GPS2REAL8 d1.header.epoch then 1
  else if d1.header.f0 < d2.header.f0 then -1
  else if d2.header.f0 < d1.header.f0 then 1
  else 0

/-- The non-strict order induced by the `compareSFTdesc` comparator. -/
def SFTdescLe (d1 d2 : SFTDescriptor) : Prop := compareSFTdesc d1 d2 ≤ 0

instance : DecidableRel SFTdescLe :=
  fun d1 d2 => inferInstanceAs (Decidable (compareSFTdesc d1 d2 ≤ 0))

/-- The (epoch, f0) lexicographic order the spec describes for catalogs. -/
def sortByEpochF0 (d1 d2 : SFTDescriptor) : Prop :=
  GPS2REAL8 d1.header.epoch < GPS2REAL8 d2.header.epoch ∨
    (GPS2REAL8 d1.header.epoch = GPS2REAL8 d2.header.epoch ∧
      d1.header.f0 ≤ d2.header.f0)

theorem compareSFTdesc_le_iff (d1 d2 : SFTDescriptor) :
    SFTdescLe d1 d2 ↔ sortByEpochF0 d1 d2 := by
  unfold SFTdescLe compareSFTdesc sortByEpochF0
  split_ifs with h1 h2 h3 h4
  · constructor
    · intro _; exact Or.inl h1
    · intro _; norm_num
  · constructor
    · intro h; omega
    · intro h
      rcases h with h | ⟨he, _⟩
      · exact absurd h (not_lt.mpr (le_of_lt h2))
      · exact absurd h2 (by rw [he]; exact lt_irrefl _)
  · have he : GPS2REAL8 d1.header.epoch = GPS2REAL8 d2.header.epoch :=
      le_antisymm (not_lt.mp h2) (not_lt.mp h1)
    constructor
    · intro _; exact Or.inr ⟨he, le_of_lt h3⟩
    · intro _; norm_num
  · have he : GPS2REAL8 d1.header.epoch = GPS2REAL8 d2.header.epoch :=
      le_antisymm (not_lt.mp h2) (not_lt.mp h1)
    constructor
    · intro h; omega
    · intro h
      rcases h with h | ⟨_, hf⟩
      · exact absurd h h1
      · exact absurd h4 (not_lt.mpr hf)
  · have he : GPS2REAL8 d1.header.epoch = GPS2REAL8 d2.header.epoch :=
      le_antisymm (not_lt.mp h2) (not_lt.mp h1)
    have hf : d1.header.f0 = d2.header.f0 := le_antisymm (not_lt.mp h4) (not_lt.mp h3)
    constructor
    · intro _; exact Or.inr ⟨he, le_of_eq hf⟩
    · intro _; norm_num

instance : IsTotal SFTDescriptor SFTdescLe where
  total d1 d2 := by
    rw [compareSFTdesc_le_iff, compareSFTdesc_le_iff]
    unfold sortByEpochF0
    rcases lt_trichotomy (GPS2REAL8 d1.header.epoch) (GPS2REAL8 d2.header.epoch) with h | h | h
    · exact Or.inl (Or.inl h)
    · rcases le_total d1.header.f0 d2.header.f0 with hf | hf
      · exact Or.inl (Or.inr ⟨h, hf⟩)
      · exact Or.inr (Or.inr ⟨h.symm, hf⟩)
    · exact Or.inr (Or.inl h)

instance : IsTrans SFTDescriptor SFTdescLe where
  trans d1 d2 d3 h12 h23 := by
    rw [compareSFTdesc_le_iff] at h12 h23 ⊢
    unfold sortByEpochF0 at h12 h23 ⊢
    rcases h12 with h12 | ⟨he12, hf12⟩ <;> rcases h23 with h23 | ⟨he23, hf23⟩
    · exact Or.inl (lt_trans h12 h23)
    · exact Or.inl (he23 ▸ h12)
    · exact Or.inl (he12 ▸ h23)
    · exact Or.inr ⟨he12.trans he23, le_trans hf12 hf23⟩

/-- One input file of the builder: its name and its concatenated SFT blocks
(each a raw header plus the bytes following it; the builder seeks past the
payload without reading it). -/
structure SFTFile where
  fname : List ℕ
  blocks : List (SFT_header_v2 × List ℕ)

/-- Error taxonomy of the builder (named after the XLAL error codes used). -/
inductive FindErr
  | edom | eio | edata | efailed
  deriving DecidableEq, Repr

/-- The per-file loop of `XLALSFTdataFind`: decode each block in turn, check
merged-file consistency against the previous block of the same file, evaluate
the user constraints, and append a descriptor with (file name, block index)
locator when the block is wanted; any decode failure or consistency violation
aborts with EDATA. -/
def processFile (re8 : ℚ → List ℕ) (constraints : Option SFTConstraints)
    (fname : List ℕ) :
    List (SFT_header_v2 × List ℕ) → ℕ → Option (SFTHeaderOut × ℕ × ℕ) →
    Except FindErr (List SFTDescriptor)
  | [], _, _ => .ok []
  | (raw, rest) :: bs, idx, mprev =>
    match read_sft_header_from_fp re8 raw rest with
    | .error _ => .error .edata
    | .ok out =>
      if (match mprev with
          | none => true
          | some p => consistent_mSFT_header p.1 p.2.1 p.2.2
              out.header out.version out.numBins) then
        let want :=
          match constraints with
          | none => true
          | some cs =>
            (match cs.detector with
             | none => true
             | some det => decide (det.take 2 = out.header.name.take 2)) &&
            decide (XLALCWGPSinRange out.header.epoch cs.minStartTime
              cs.maxStartTime = 0) &&
            (match cs.timestamps with
             | none => true
             | some ts => timestamp_in_list out.header.epoch ts)
        (processFile re8 constraints fname bs (idx + 1)
            (some (out.header, out.version, out.numBins))).map fun ds =>
          if want then
            { header := out.header, comment := out.SFTcomment
              numBins := out.numBins, version := out.version, crc64 := out.crc64
              locatorFname := fname, locatorOffset := idx } :: ds
          else ds
      else .error .edata

/-- The scan over all matched files, appending each file's descriptors to the
accumulated catalog (`ret->data`), aborting on the first failing file. -/
def sftdataFind_scan (re8 : ℚ → List ℕ) (constraints : Option SFTConstraints) :
    List SFTFile → List SFTDescriptor → Except FindErr (List SFTDescriptor)
  | [], acc => .ok acc
  | f :: fs, acc =>
    (processFile re8 constraints f.fname f.blocks 0 none).bind fun ds =>
      sftdataFind_scan re8 constraints fs (acc ++ ds)

/-- The post-scan timestamp check: every requested timestamp lying within
`[minStartTime, maxStartTime)` must equal the epoch of some descriptor. -/
def timestamps_check (constraints : Option SFTConstraints)
    (descs : List SFTDescriptor) : Bool :=
  match constraints with
  | none => true
  | some cs =>
    match cs.timestamps with
    | none => true
    | some ts => ts.all fun t =>
        decide (XLALCWGPSinRange t cs.minStartTime cs.maxStartTime ≠ 0) ||
        descs.any fun d =>
          decide (t.gpsSeconds = d.header.epoch.gpsSeconds ∧
            t.gpsNanoSeconds = d.header.epoch.gpsNanoSeconds)

/-- The post-scan homogeneity check: all matched descriptors must share the
`deltaF` of the first one. -/
def deltaF_check (descs : List SFTDescriptor) : Bool :=
  match descs with
  | [] => true
  | d0 :: _ => descs.all fun d => decide (d.header.deltaF = d0.header.deltaF)

/-- `XLALSFTdataFind`: validate the detector constraint, scan all files,
verify all in-range requested timestamps were matched (EFAILED otherwise),
verify homogeneous `deltaF` (EDATA otherwise), and sort the catalog with
`compareSFTdesc` (the source's `qsort`, modelled by insertion sort). -/
def XLALSFTdataFind (re8 : ℚ → List ℕ) (files : List SFTFile)
    (constraints : Option SFTConstraints) :
    Except FindErr (List SFTDescriptor) :=
  if (match constraints with
      | some cs => match cs.detector with
        | some det => ! XLALIsValidCWDetector det
        | none => false
      | none => false) then .error .edom
  else
    (sftdataFind_scan re8 constraints files []).bind fun descs =>
      if ¬ timestamps_check constraints descs then .error .efailed
      else if ¬ deltaF_check descs then .error .edata
      else .ok (List.insertionSort SFTdescLe descs)

/-- Decoding every block of a file in order (the reads `XLALSFTdataFind`
performs while walking one file). -/
def blockDecodes (re8 : ℚ → List ℕ) : List (SFT_header_v2 × List ℕ) →
    Except Unit (List ReadHeaderOut)
  | [] => .ok []
  | b :: bs => (read_sft_header_from_fp re8 b.1 b.2).bind fun o =>
      (blockDecodes re8 bs).map (o :: ·)

/-- Consecutive-block consistency, as checked between decoded headers. -/
def consistentOuts (o1 o2 : ReadHeaderOut) : Bool :=
  consistent_mSFT_header o1.header o1.version o1.numBins
    o2.header o2.version o2.numBins

theorem processFile_ok_chain (re8 : ℚ → List ℕ) (cs : Option SFTConstraints)
    (fname : List ℕ) :
    ∀ (blocks : List (SFT_header_v2 × List ℕ)) (idx : ℕ)
      (mprev : Option (SFTHeaderOut × ℕ × ℕ)) (ds : List SFTDescriptor),
      processFile re8 cs fname blocks idx mprev = .ok ds →
      ∃ outs : List ReadHeaderOut,
        blockDecodes re8 blocks = .ok outs ∧
        List.Chain' (fun o1 o2 => consistentOuts o1 o2 = true) outs ∧
        ∀ p o0, mprev = some p → outs.head? = some o0 →
          consistent_mSFT_header p.1 p.2.1 p.2.2 o0.header o0.version o0.numBins = true := by
  intro blocks
  induction blocks with
  | nil =>
    intro idx mprev ds h
    exact ⟨[], rfl, List.chain'_nil, by intro p o0 _ h0; cases h0⟩
  | cons b bs ih =>
    intro idx mprev ds h
    rcases b with ⟨raw, rest⟩
    cases hread : read_sft_header_from_fp re8 raw rest with
    | error e =>
      simp only [processFile, hread] at h
      cases h
    | ok out =>
      cases mprev with
      | none =>
        simp only [processFile, hread, if_pos] at h
        cases hrec : processFile re8 cs fname bs (idx + 1)
            (some (out.header, out.version, out.numBins)) with
        | error e => rw [hrec] at h; cases h
        | ok ds2 =>
          obtain ⟨outs2, ho2, hchain2, hhead2⟩ := ih (idx + 1) _ ds2 hrec
          refine ⟨out :: outs2, ?_, ?_, ?_⟩
          · rw [blockDecodes, hread, ho2]
            rfl
          · rw [List.chain'_cons']
            refine ⟨?_, hchain2⟩
            intro o2 ho2h
            exact hhead2 (out.header, out.version, out.numBins) o2 rfl ho2h
          · intro p o0 hp h0
            cases hp
      | some p =>
        by_cases hcons : consistent_mSFT_header p.1 p.2.1 p.2.2
            out.header out.version out.numBins = true
        · simp only [processFile, hread, hcons, if_pos] at h
          cases hrec : processFile re8 cs fname bs (idx + 1)
              (some (out.header, out.version, out.numBins)) with
          | error e => rw [hrec] at h; cases h
          | ok ds2 =>
            obtain ⟨outs2, ho2, hchain2, hhead2⟩ := ih (idx + 1) _ ds2 hrec
            refine ⟨out :: outs2, ?_, ?_, ?_⟩
            · rw [blockDecodes, hread, ho2]
              rfl
            · rw [List.chain'_cons']
              refine ⟨?_, hchain2⟩
              intro o2 ho2h
              exact hhead2 (out.header, out.version, out.numBins) o2 rfl ho2h
            · intro p2 o0 hp h0
              rw [Option.some.injEq] at hp
              subst hp
              simp only [List.head?_cons, Option.some.injEq] at h0
              subst h0
              exact hcons
        · simp only [processFile, hread] at h
          rw [if_neg (by simpa using hcons)] at h
          cases h

theorem scan_ok_each (re8 : ℚ → List ℕ) (cs : Option SFTConstraints) :
    ∀ (files : List SFTFile) (acc all : List SFTDescriptor),
      sftdataFind_scan re8 cs files acc = .ok all →
      ∀ f ∈ files, ∃ ds, processFile re8 cs f.fname f.blocks 0 none = .ok ds := by
  intro files
  induction files with
  | nil => intro acc all h f hf; cases hf
  | cons g gs ih =>
    intro acc all h f hf
    rw [sftdataFind_scan] at h
    cases hg : processFile re8 cs g.fname g.blocks 0 none with
    | error e =>
      rw [hg] at h
      cases h
    | ok ds =>
      rw [hg] at h
      rcases List.mem_cons.mp hf with rfl | hf2
      · exact ⟨ds, hg⟩
      · exact ih (acc ++ ds) all h f hf2

/-- C2: for every catalog returned successfully by `XLALSFTdataFind`, the
descriptors are pairwise sorted by (epoch, f0), and in every input file all
blocks decode and any two consecutive blocks satisfy the merged-file
consistency rule (identical detector, identical version, strictly increasing
epochs, identical `deltaF`, identical `f0`, identical sample count).  By
contraposition a consistency violation means no catalog is returned — the
build aborts with an error (`Except.error`), never with a partial catalog. -/
theorem sftdataFind_catalog_invariants (re8 : ℚ → List ℕ) (files : List SFTFile)
    (cs : Option SFTConstraints) (cat : List SFTDescriptor)
    (h : XLALSFTdataFind re8 files cs = .ok cat) :
    List.Pairwise sortByEpochF0 cat ∧
    ∀ f ∈ files, ∃ outs, blockDecodes re8 f.blocks = .ok outs ∧
      List.Chain' (fun o1 o2 => consistentOuts o1 o2 = true) outs := by
  unfold XLALSFTdataFind at h
  split_ifs at h with hdet
  cases hscan : sftdataFind_scan re8 cs files [] with
  | error e => rw [hscan] at h; cases h
  | ok descs =>
    rw [hscan] at h
    simp only [Except.bind] at h
    split_ifs at h with ht hd
    have hcat : cat = List.insertionSort SFTdescLe descs := (Except.ok.inj h).symm
    constructor
    · rw [hcat]
      have hs := List.sorted_insertionSort SFTdescLe descs
      exact hs.imp (fun hab => (compareSFTdesc_le_iff _ _).mp hab)
    · intro f hf
      obtain ⟨ds, hds⟩ := scan_ok_each re8 cs files [] descs hscan f hf
      obtain ⟨outs, ho, hchain, _⟩ :=
        processFile_ok_chain re8 cs f.fname f.blocks 0 none ds hds
      exact ⟨outs, ho, hchain⟩

/-- Witness for C2: a single file with no SFT blocks yields the empty catalog,
which is trivially sorted and trivially chain-consistent. -/
theorem sftdataFind_catalog_invariants_witness :
    List.Pairwise sortByEpochF0 ([] : List SFTDescriptor) ∧
    ∀ f ∈ [({ fname := [97], blocks := [] } : SFTFile)],
      ∃ outs, blockDecodes re8zero f.blocks = .ok outs ∧
        List.Chain' (fun o1 o2 => consistentOuts o1 o2 = true) outs :=
  sftdataFind_catalog_invariants re8zero [{ fname := [97], blocks := [] }]
    none [] rfl

/-- C5: when a timestamp-list constraint is given and `XLALSFTdataFind`
returns a catalog, every requested timestamp lying within
`[minStartTime, maxStartTime)` equals the epoch of some descriptor of the
result; by contraposition an unmatched in-range timestamp means the build
returned an error, never a catalog silently omitting it. -/
theorem sftdataFind_timestamps_matched (re8 : ℚ → List ℕ) (files : List SFTFile)
    (cs : SFTConstraints) (ts : List LIGOTimeGPS) (cat : List SFTDescriptor)
    (hts : cs.timestamps = some ts)
    (h : XLALSFTdataFind re8 files (some cs) = .ok cat) :
    ∀ t ∈ ts, XLALCWGPSinRange t cs.minStartTime cs.maxStartTime = 0 →
      ∃ d ∈ cat, t.gpsSeconds = d.header.epoch.gpsSeconds ∧
        t.gpsNanoSeconds = d.header.epoch.gpsNanoSeconds := by
  unfold XLALSFTdataFind at h
  split_ifs at h with hdet
  cases hscan : sftdataFind_scan re8 (some cs) files [] with
  | error e => rw [hscan] at h; cases h
  | ok descs =>
    rw [hscan] at h
    simp only [Except.bind] at h
    split_ifs at h with htck hdck
    have hcat : cat = List.insertionSort SFTdescLe descs := (Except.ok.inj h).symm
    intro t htmem hrange
    have hc := htck
    simp only [timestamps_check, hts] at hc
    rw [List.all_eq_true] at hc
    have hct := hc t htmem
    rw [Bool.or_eq_true] at hct
    rcases hct with hct | hct
    · rw [decide_eq_true_eq] at hct
      exact absurd hrange hct
    · rw [List.any_eq_true] at hct
      obtain ⟨d, hd, hdq⟩ := hct
      rw [decide_eq_true_eq] at hdq
      refine ⟨d, ?_, hdq⟩
      rw [hcat]
      exact (List.perm_insertionSort SFTdescLe descs).symm.subset hd

/-- Concrete raw v2 header for the C5 witness: epoch 1000, `tbase` 1,
one sample, detector H1, empty comment. -/
def w5raw : SFT_header_v2 :=
  ⟨2, 1000, 0, 1, 0, 1, 0, (72, 49), (0, 0), 0⟩

/-- One-block input file of the C5 witness. -/
def w5file : SFTFile := ⟨[97], [(w5raw, [])]⟩

/-- Constraint set of the C5 witness: one requested timestamp, no bounds. -/
def w5cs : SFTConstraints :=
  { detector := none, minStartTime := none, maxStartTime := none,
    timestamps := some [⟨1000, 0⟩] }

/-- The descriptor the C5 witness catalog contains. -/
def w5desc : SFTDescriptor :=
  { header := { name := [72, 49], epoch := ⟨1000, 0⟩, f0 := 0, deltaF := 1 }
    comment := none
    numBins := 1
    version := 2
    crc64 := 0
    locatorFname := [97]
    locatorOffset := 0 }

/-- The C5 witness catalog. -/
def w5cat : List SFTDescriptor := [w5desc]

/-- Witness for C5: a build with one requested timestamp succeeds and the
timestamp is matched by the catalog's descriptor. -/
theorem sftdataFind_timestamps_matched_witness :
    ∃ d ∈ w5cat,
      (⟨1000, 0⟩ : LIGOTimeGPS).gpsSeconds = d.header.epoch.gpsSeconds ∧
      (⟨1000, 0⟩ : LIGOTimeGPS).gpsNanoSeconds = d.header.epoch.gpsNanoSeconds := by
  have hW5 : XLALSFTdataFind re8zero [w5file] (some w5cs) = Except.ok w5cat := by
    norm_num [XLALSFTdataFind, sftdataFind_scan, processFile,
      read_sft_header_from_fp, read_SFTversion_from_fp, read_v2_header_from_fp,
      XLALIsValidCWDetector, validCWDetectorNames, XLALCWGPSinRange,
      timestamp_in_list, timestamps_check, deltaF_check, w5file, w5cs, w5raw,
      w5cat, w5desc, Except.bind, Except.map, List.insertionSort,
      List.orderedInsert]
  exact sftdataFind_timestamps_matched re8zero [w5file] w5cs [⟨1000, 0⟩] w5cat
    rfl hW5 ⟨1000, 0⟩ (List.mem_singleton_self _) rfl

/-! ## File/glob resolver (`XLALFindFiles`) -/

theorem dropWhile_length_le (p : ℕ → Bool) (l : List ℕ) :
    (l.dropWhile p).length ≤ l.length := by
  induction l with
  | nil => simp
  | cons a l ih =>
    rw [List.dropWhile]
    cases p a <;> simp <;> omega

/-- `is_pattern`: the string contains a glob metacharacter `*` (42), `?` (63)
or `[` (91); the source scans to the first such character or the terminator
and tests whether it stopped before the end. -/
def is_pattern (c : List ℕ) : Bool :=
  !(c.dropWhile (fun x => decide (x ≠ 42 ∧ x ≠ 63 ∧ x ≠ 91))).isEmpty

/-- The character-set loop of `amatch`'s `[` case (`while (!match && (c = *p++))`),
returning `none` where the source returns FALSE from inside the loop, and
otherwise the accumulated match flag together with the pattern rest at loop
exit.  `[]` plays the terminator's role; set comparisons are on byte values
(the source compares `char`s). -/
def bracketLoop (sc : ℕ) (l : List ℕ) : Option (Bool × List ℕ) :=
  if h0 : l = [] then some (false, [])
  else
    if h1 : l.tail = [] then none
    else
      if l.tail.headD 0 = 45 then
        if h2 : l.tail.tail = [] then none
        else
          if l.tail.tail.headD 0 ≠ 93 then
            if sc = l.headD 0 ∨ sc = l.tail.tail.headD 0 ∨
                (l.headD 0 < sc ∧ sc < l.tail.tail.headD 0) then
              some (true, l.tail.tail.headD 0 :: l.tail.tail.tail)
            else bracketLoop sc (l.tail.tail.headD 0 :: l.tail.tail.tail)
          else some (decide (l.headD 0 ≤ sc), 93 :: l.tail.tail.tail)
      else if l.tail.headD 0 = 93 then some (decide (sc = l.headD 0), 93 :: l.tail.tail)
      else
        if sc = l.headD 0 ∨ sc = l.tail.headD 0 then
          some (true, l.tail.headD 0 :: l.tail.tail)
        else bracketLoop sc (l.tail.headD 0 :: l.tail.tail)
termination_by l.length
decreasing_by
  · have hl0 : 0 < l.length := List.length_pos.mpr h0
    have hr0 : 0 < l.tail.length := List.length_pos.mpr h1
    have hr20 : 0 < l.tail.tail.length := List.length_pos.mpr h2
    have e1 : l.tail.length = l.length - 1 := List.length_tail l
    have e2 : l.tail.tail.length = l.tail.length - 1 := List.length_tail _
    have e3 : l.tail.tail.tail.length = l.tail.tail.length - 1 := List.length_tail _
    simp only [List.length_cons]
    omega
  · have hl0 : 0 < l.length := List.length_pos.mpr h0
    have hr0 : 0 < l.tail.length := List.length_pos.mpr h1
    have e1 : l.tail.length = l.length - 1 := List.length_tail l
    have e2 : l.tail.tail.length = l.tail.length - 1 := List.length_tail _
    simp only [List.length_cons]
    omega

theorem bracketLoop_length_aux (sc : ℕ) : ∀ (n : ℕ) (l : List ℕ), l.length ≤ n →
    ∀ (m : Bool) (rest : List ℕ), bracketLoop sc l = some (m, rest) →
    rest.length ≤ l.length := by
  intro n
  induction n with
  | zero =>
    intro l hl m rest h
    have hnil : l = [] := List.length_eq_zero.mp (Nat.le_zero.mp hl)
    subst hnil
    rw [bracketLoop] at h
    rw [dif_pos rfl, Option.some.injEq, Prod.mk.injEq] at h
    rw [← h.2]
  | succ n ih =>
    intro l hl m rest h
    rw [bracketLoop] at h
    by_cases h0 : l = []
    · rw [dif_pos h0, Option.some.injEq, Prod.mk.injEq] at h
      rw [← h.2]
      simp
    · rw [dif_neg h0] at h
      by_cases h1 : l.tail = []
      · rw [dif_pos h1] at h
        cases h
      · rw [dif_neg h1] at h
        have hlen1 : 0 < l.length := List.length_pos.mpr h0
        have hlen2 : 0 < l.tail.length := List.length_pos.mpr h1
        have e1 : l.tail.length = l.length - 1 := List.length_tail l
        have e2 : l.tail.tail.length = l.tail.length - 1 := List.length_tail _
        have e3 : l.tail.tail.tail.length = l.tail.tail.length - 1 := List.length_tail _
        by_cases h45 : l.tail.headD 0 = 45
        · rw [if_pos h45] at h
          by_cases h2 : l.tail.tail = []
          · rw [dif_pos h2] at h
            cases h
          · rw [dif_neg h2] at h
            have hlen3 : 0 < l.tail.tail.length := List.length_pos.mpr h2
            by_cases h93 : l.tail.tail.headD 0 ≠ 93
            · rw [if_pos h93] at h
              by_cases hm : sc = l.headD 0 ∨ sc = l.tail.tail.headD 0 ∨
                  (l.headD 0 < sc ∧ sc < l.tail.tail.headD 0)
              · rw [if_pos hm, Option.some.injEq, Prod.mk.injEq] at h
                rw [← h.2]
                simp only [List.length_cons]
                omega
              · rw [if_neg hm] at h
                have hrec := ih (l.tail.tail.headD 0 :: l.tail.tail.tail)
                  (by simp only [List.length_cons]; omega) m rest h
                simp only [List.length_cons] at hrec
                omega
            · rw [if_neg h93, Option.some.injEq, Prod.mk.injEq] at h
              rw [← h.2]
              simp only [List.length_cons]
              omega
        · rw [if_neg h45] at h
          by_cases h93 : l.tail.headD 0 = 93
          · rw [if_pos h93, Option.some.injEq, Prod.mk.injEq] at h
            rw [← h.2]
            simp only [List.length_cons]
            omega
          · rw [if_neg h93] at h
            by_cases hm : sc = l.headD 0 ∨ sc = l.tail.headD 0
            · rw [if_pos hm, Option.some.injEq, Prod.mk.injEq] at h
              rw [← h.2]
              simp only [List.length_cons]
              omega
            · rw [if_neg hm] at h
              have hrec := ih (l.tail.headD 0 :: l.tail.tail)
                (by simp only [List.length_cons]; omega) m rest h
              simp only [List.length_cons] at hrec
              omega

theorem bracketLoop_length (sc : ℕ) (l : List ℕ) (m : Bool) (rest : List ℕ)
    (h : bracketLoop sc l = some (m, rest)) : rest.length ≤ l.length :=
  bracketLoop_length_aux sc l.length l (le_refl _) m rest h


/-- The fast-forward of `amatch`'s `*` case: when the character after the
stars is an ordinary literal, `str` is advanced to its first occurrence
(`while (*str && *p != *str) str++`). -/
def starAdvance (str p3 : List ℕ) : List ℕ :=
  if p3.headD 0 ≠ 63 ∧ p3.headD 0 ≠ 91 ∧ p3.headD 0 ≠ 92 then
    str.dropWhile (fun x => decide (x ≠ p3.headD 0))
  else str

/-- Whether the character set opened by `[` starts with the negation char
`^` (94). -/
def bracketNeg (p : List ℕ) : Bool := p.tail.headD 0 == 94

/-- The set body handed to the bracket loop: the pattern after `[`, with a
leading `^` consumed. -/
def bracketPat (p : List ℕ) : List ℕ :=
  if p.tail.headD 0 = 94 then p.tail.tail else p.tail

/-- Ozan Yigit's glob matcher `amatch` (public-domain, embedded in the
source): `*`, `?`, `[set]`, `[^set]`, `\\c` and literal characters; strings
are NUL-free byte lists and the terminator is the end of the list. -/
def amatch (str p : List ℕ) : Bool :=
  if hp : p = [] then str.isEmpty
  else
    if str.isEmpty && !(p.headD 0 == 42) then false
    else
      if p.headD 0 = 42 then
        if hq : p.tail.dropWhile (fun x => x == 42) = [] then true
        else
          (starAdvance str (p.tail.dropWhile (fun x => x == 42))).tails.any
            (fun s => !s.isEmpty && amatch s (p.tail.dropWhile (fun x => x == 42)))
      else if p.headD 0 = 63 then amatch str.tail p.tail
      else if p.headD 0 = 91 then
        match hbl : bracketLoop (str.headD 0) (bracketPat p) with
        | none => false
        | some (m, prest) =>
          if bracketNeg p == m then false
          else
            if hq : prest.dropWhile (fun x => !(x == 93)) = [] then false
            else amatch str.tail (prest.dropWhile (fun x => !(x == 93))).tail
      else if p.headD 0 = 92 then
        if p.tail = [] then
          if (92 : ℕ) = str.headD 0 then amatch str.tail p.tail else false
        else
          if p.tail.headD 0 = str.headD 0 then amatch str.tail p.tail.tail else false
      else
        if p.headD 0 = str.headD 0 then amatch str.tail p.tail else false
termination_by p.length
decreasing_by
  · have h1 : 0 < p.length := List.length_pos.mpr hp
    have h2 := dropWhile_length_le (fun x => x == 42) p.tail
    have h3 : p.tail.length = p.length - 1 := List.length_tail p
    omega
  · have h1 : 0 < p.length := List.length_pos.mpr hp
    have h3 : p.tail.length = p.length - 1 := List.length_tail p
    omega
  · have h1 : 0 < p.length := List.length_pos.mpr hp
    have h2 := bracketLoop_length (str.headD 0) (bracketPat p) m prest hbl
    have h3 : (bracketPat p).length ≤ p.tail.length := by
      rw [bracketPat]
      by_cases hc : p.tail.headD 0 = 94
      · rw [if_pos hc, List.length_tail]
        omega
      · rw [if_neg hc]
    have h4 := dropWhile_length_le (fun x => !(x == 93)) prest
    have h5 : 0 < (prest.dropWhile (fun x => !(x == 93))).length :=
      List.length_pos.mpr hq
    have h6 : (prest.dropWhile (fun x => !(x == 93))).tail.length =
        (prest.dropWhile (fun x => !(x == 93))).length - 1 := List.length_tail _
    have h7 : p.tail.length = p.length - 1 := List.length_tail p
    omega
  · have h1 : 0 < p.length := List.length_pos.mpr hp
    have h3 : p.tail.length = p.length - 1 := List.length_tail p
    omega
  · have h1 : 0 < p.length := List.length_pos.mpr hp
    have h3 : p.tail.length = p.length - 1 := List.length_tail p
    have h4 : p.tail.tail.length = p.tail.length - 1 := List.length_tail _
    omega
  · have h1 : 0 < p.length := List.length_pos.mpr hp
    have h3 : p.tail.length = p.length - 1 := List.length_tail p
    omega


/-- Abstract filesystem: directory listings (`opendir`/`readdir`, entries in
traversal order) and parsed "list files" (`XLALParseDataFile` token lines);
`none` is a failed open/parse. -/
structure FileSystem where
  dirs : List ℕ → Option (List (List ℕ))
  listFiles : List ℕ → Option (List (List ℕ))

/-- Error codes of the file resolver (`XLAL_EINVAL`, `XLAL_EIO`,
`XLAL_EFUNC`). -/
inductive FilesErr where
  | einval : FilesErr
  | eio : FilesErr
  | efunc : FilesErr
deriving DecidableEq

/-- Strip the `file://localhost/` (17 bytes, 16 dropped) or `file:///`
(8 bytes, 7 dropped) prefix from a list-file entry, keeping the final
slash (`ptr1 += strlen(FILE_PREFIX) - 1`). -/
def stripFilePrefix (s : List ℕ) : List ℕ :=
  if List.isPrefixOf [102,105,108,101,58,47,47,108,111,99,97,108,104,111,115,116,47] s
    then s.drop 16
  else if List.isPrefixOf [102,105,108,101,58,47,47,47] s then s.drop 7
  else s

/-- Directory part of a glob: everything before the last `/` (47), or `.`
(46) when the pattern has no slash (`strrchr (globstring, DIR_SEPARATOR)`). -/
def globDir (s : List ℕ) : List ℕ :=
  if s.contains 47 then ((s.reverse.dropWhile (fun x => !(x == 47))).tail).reverse
  else [46]

/-- File part of a glob: everything after the last `/`, or the whole pattern
when it has no slash. -/
def globPat (s : List ℕ) : List ℕ :=
  if s.contains 47 then (s.reverse.takeWhile (fun x => !(x == 47))).reverse
  else s

/-- One fragment of `XLALFindFiles` (no `;` inside): the `list:` branch, the
glob branch (match each directory entry, skipping `.` and `..`, and prepend
the directory), or a plain filename copied as-is. -/
def findFilesSingle (fs : FileSystem) (s : List ℕ) : Except FilesErr (List (List ℕ)) :=
  if List.isPrefixOf [108,105,115,116,58] s then
    match fs.listFiles (s.drop 5) with
    | none => .error .efunc
    | some lines =>
      if lines.isEmpty then .error .einval
      else .ok (lines.map stripFilePrefix)
  else if is_pattern s then
    match fs.dirs (globDir s) with
    | none => .error .eio
    | some entries =>
      .ok ((entries.filter (fun e =>
        amatch e (globPat s) && !(e == ([46] : List ℕ)) && !(e == ([46,46] : List ℕ)))).map
        (fun e => globDir s ++ 47 :: e))
  else .ok [s]

/-- Modelled from the spec: `XLALSortStringVector` sorts the vector in place
in ascending `strcmp` order (lexicographic by byte value, a proper prefix
before its extensions).  An in-place sort preserves the length, so equal
strings all stay. -/
def XLALSortStringVector (l : List (List ℕ)) : List (List ℕ) :=
  List.insertionSort (fun a b => a ≤ b) l

/-- The common tail of `XLALFindFiles`: zero files is `XLAL_EINVAL`, and the
list is sorted when it has more than one entry. -/
def finishFindFiles (files : List (List ℕ)) : Except FilesErr (List (List ℕ)) :=
  if files.isEmpty then .error .einval
  else if 1 < files.length then .ok (XLALSortStringVector files)
  else .ok files

/-- A full resolver call on a fragment without `;`: the single-pattern body
followed by the common tail. -/
def findFilesOne (fs : FileSystem) (s : List ℕ) : Except FilesErr (List (List ℕ)) :=
  (findFilesSingle fs s).bind finishFindFiles

/-- The multi-pattern loop: every fragment but the last aborts the whole
call with `XLAL_EFUNC` when its recursive resolution fails, while a failure
of the last fragment is silently dropped (`ret = XLALFindFiles(ptr1); if
(ret) {...}` with no else). -/
def findFilesMulti (fs : FileSystem) : List (List ℕ) → List (List ℕ) →
    Except FilesErr (List (List ℕ))
  | [], acc => .ok acc
  | [s], acc =>
    match findFilesOne fs s with
    | .error _ => .ok acc
    | .ok files => .ok (acc ++ files)
  | s :: s2 :: ss, acc =>
    match findFilesOne fs s with
    | .error _ => .error .efunc
    | .ok files => findFilesMulti fs (s2 :: ss) (acc ++ files)

/-- `XLALFindFiles`: split a multi-pattern at `;` (59) and resolve each
fragment, else resolve the single pattern; then fail on zero files and sort
when more than one. -/
def XLALFindFiles (fs : FileSystem) (g : List ℕ) : Except FilesErr (List (List ℕ)) :=
  if g.contains 59 then (findFilesMulti fs (g.splitOn 59) []).bind finishFindFiles
  else (findFilesSingle fs g).bind finishFindFiles

/-- A filesystem with nothing in it. -/
def emptyFS : FileSystem := ⟨fun _ => none, fun _ => none⟩

theorem finishFindFiles_ok (l files : List (List ℕ))
    (h : finishFindFiles l = Except.ok files) :
    files.Sorted (fun a b => a ≤ b) ∧ files ≠ [] := by
  rw [finishFindFiles] at h
  split_ifs at h with h0 h1
  · have hf : files = XLALSortStringVector l := (Except.ok.inj h).symm
    subst hf
    constructor
    · exact List.sorted_insertionSort _ l
    · have hlen : (XLALSortStringVector l).length = l.length :=
        (List.perm_insertionSort _ l).length_eq
      intro hnil
      rw [hnil] at hlen
      simp only [List.length_nil] at hlen
      omega
  · have hf : files = l := (Except.ok.inj h).symm
    subst hf
    rcases files with _ | ⟨a, _ | ⟨b, t⟩⟩
    · simp at h0
    · exact ⟨List.sorted_singleton a, by simp⟩
    · simp at h1

/-- C4 counterexample: the glob string `a;a` (two identical literal
fragments) resolves to the duplicated path list `[a, a]` — `XLALFindFiles`
sorts but never deduplicates. -/
theorem findFiles_dedup_counterexample :
    XLALFindFiles emptyFS [97,59,97] = Except.ok [[97],[97]] ∧
    ¬ ([[97],[97]] : List (List ℕ)).Nodup :=
  ⟨rfl, by decide⟩

/-- C4 (amended): every successful `XLALFindFiles` call returns a list that
is sorted in ascending `strcmp` order and nonempty (zero resolved paths is
the error `XLAL_EINVAL`, never an empty success); duplicates are NOT
removed. -/
theorem findFiles_sorted_nonempty (fs : FileSystem) (g : List ℕ)
    (files : List (List ℕ)) (h : XLALFindFiles fs g = Except.ok files) :
    files.Sorted (fun a b => a ≤ b) ∧ files ≠ [] := by
  rw [XLALFindFiles] at h
  split_ifs at h
  · cases hm : findFilesMulti fs (g.splitOn 59) [] with
    | error e =>
      rw [hm] at h
      simp only [Except.bind] at h
      cases h
    | ok l =>
      rw [hm] at h
      simp only [Except.bind] at h
      exact finishFindFiles_ok l files h
  · cases hm : findFilesSingle fs g with
    | error e =>
      rw [hm] at h
      simp only [Except.bind] at h
      cases h
    | ok l =>
      rw [hm] at h
      simp only [Except.bind] at h
      exact finishFindFiles_ok l files h

/-- Witness for C4: resolving `b;a` yields the sorted nonempty list
`[a, b]`. -/
theorem findFiles_sorted_nonempty_witness :
    XLALFindFiles emptyFS [98,59,97] = Except.ok [[97],[98]] ∧
    ([[97],[98]] : List (List ℕ)).Sorted (fun a b => a ≤ b) ∧
    ([[97],[98]] : List (List ℕ)) ≠ [] :=
  ⟨rfl, findFiles_sorted_nonempty emptyFS [98,59,97] [[97],[98]] rfl⟩


/-! ## Segment loader (`XLALLoadSFTs`) -/

/-- One catalog descriptor as consumed by `XLALLoadSFTs` via its locator:
the header fields the loop reads (`epoch`, `deltaF`, `f0`), the locator
(`fname`, `offset`), and `read` = the `(firstBinRead, lastBinRead)` outcome
of `read_sft_bins_from_fp` for this locator under the requested bin window
(file I/O is abstracted the same way `re8` abstracts REAL8 images: the
assembly loop only sees this pair). -/
structure CatDesc where
  epoch : LIGOTimeGPS
  deltaF : ℚ
  f0 : ℚ
  fname : List ℕ
  offset : ℕ
  read : ℕ × ℕ

/-- `SFTReadSegment`: the per-epoch bookkeeping record (first and last bin
read so far, epoch, and the locator the last bin came from — modelled by
its file name). -/
structure SFTReadSegment where
  first : ℕ
  last : ℕ
  epoch : LIGOTimeGPS
  lastfrom : List ℕ
deriving DecidableEq

/-- `XLALCalloc`-zeroed segment array. -/
def initSegs : ℕ → SFTReadSegment := fun _ => ⟨0, 0, ⟨0, 0⟩, []⟩

/-- Functional update of the segment array. -/
def setSeg (segs : ℕ → SFTReadSegment) (i : ℕ) (v : SFTReadSegment) :
    ℕ → SFTReadSegment :=
  fun j => if j = i then v else segs j

/-- The distinct error exits of `XLALLoadSFTs` (all `XLAL_EIO` in the source
but with distinct messages; the payloads carry what each message prints). -/
inductive LoadErr where
  | gapFirst : ℕ → ℕ → ℕ → List ℕ → LoadErr
  | gapOverlap : ℕ → ℕ → List ℕ → ℕ → List ℕ → LoadErr
  | deltaFMismatch : List ℕ → LoadErr
  | epochMismatch : List ℕ → LoadErr
  | readFail : ℕ → List ℕ → LoadErr
  | missingData : ℕ → ℕ → ℕ → List ℕ → LoadErr
  | noData : ℕ → LoadErr
deriving DecidableEq

/-- The first pass of `XLALLoadSFTs`: walk the epoch-sorted catalog and
record in each locator the index `isft` of its GPS timestamp (a new index
whenever the epoch changes). -/
def assignIsft (e : LIGOTimeGPS) (n : ℕ) : List CatDesc → List (ℕ × CatDesc)
  | [] => []
  | d :: ds =>
    if GPSEQUAL e d.epoch then (n, d) :: assignIsft d.epoch n ds
    else (n + 1, d) :: assignIsft d.epoch (n + 1) ds

/-- The same pass's SFT count (`nSFTs`): one per distinct run of equal
epochs. -/
def countSFTs (e : LIGOTimeGPS) (n : ℕ) : List CatDesc → ℕ
  | [] => n
  | d :: ds =>
    if GPSEQUAL e d.epoch then countSFTs d.epoch n ds
    else countSFTs d.epoch (n + 1) ds

/-- `compareSFTloc` as a total order: by `f0`, then file name (`strcmp`),
then offset. -/
def SFTlocLe (a b : ℕ × CatDesc) : Prop :=
  a.2.f0 < b.2.f0 ∨ (a.2.f0 = b.2.f0 ∧
    (a.2.fname < b.2.fname ∨ (a.2.fname = b.2.fname ∧ a.2.offset ≤ b.2.offset)))

instance : DecidableRel SFTlocLe := fun a b => by
  unfold SFTlocLe
  infer_instance

/-- The locator-sorted local catalog (`locatalog` after the `qsort` by
`compareSFTloc`), with the `isft` indices of the first pass attached. -/
def sortedCatalog (d0 : CatDesc) (rest : List CatDesc) : List (ℕ × CatDesc) :=
  List.insertionSort SFTlocLe ((0, d0) :: assignIsft d0.epoch 0 rest)

/-- One iteration of the assembly loop of `XLALLoadSFTs` (lines 914-977 of
the source) for a read outcome `d.read`: the first segment of an epoch must
start at `firstbin`, a later segment must start at `last + 1` (else the
gap-or-overlap error naming the file that supplied `last` and the current
file), then the `deltaF` and epoch consistency checks, then the segment
record is advanced. -/
def loadStep (deltaF : ℚ) (firstbin : ℕ) (segs : ℕ → SFTReadSegment)
    (isft : ℕ) (d : CatDesc) : Except LoadErr (ℕ → SFTReadSegment) :=
  if d.read.2 ≠ 0 then
    if (segs isft).last = 0 then
      if d.read.1 ≠ firstbin then
        .error (.gapFirst isft firstbin d.read.1 d.fname)
      else if deltaF ≠ d.deltaF then .error (.deltaFMismatch d.fname)
      else .ok (setSeg segs isft ⟨d.read.1, d.read.2, d.epoch, d.fname⟩)
    else if d.read.1 ≠ (segs isft).last + 1 then
      .error (.gapOverlap isft (segs isft).last (segs isft).lastfrom
        d.read.1 d.fname)
    else if deltaF ≠ d.deltaF then .error (.deltaFMismatch d.fname)
    else if !(GPSEQUAL (segs isft).epoch d.epoch) then
      .error (.epochMismatch d.fname)
    else .ok (setSeg segs isft
      ⟨(segs isft).first, d.read.2, (segs isft).epoch, d.fname⟩)
  else if d.read.1 = 0 then
    if GPSZERO (segs isft).epoch then
      .ok (setSeg segs isft
        ⟨(segs isft).first, (segs isft).last, d.epoch, (segs isft).lastfrom⟩)
    else if !(GPSEQUAL (segs isft).epoch d.epoch) then
      .error (.epochMismatch d.fname)
    else .ok segs
  else .error (.readFail d.read.1 d.fname)

/-- The assembly loop over the locator-sorted catalog. -/
def loadLoop (deltaF : ℚ) (firstbin : ℕ) :
    (ℕ → SFTReadSegment) → List (ℕ × CatDesc) →
    Except LoadErr (ℕ → SFTReadSegment)
  | segs, [] => .ok segs
  | segs, p :: rest =>
    (loadStep deltaF firstbin segs p.1 p.2).bind
      (fun s => loadLoop deltaF firstbin s rest)

/-- The completeness pass (lines 988-1005): every SFT's segment record must
end exactly at `lastbin`; a partially read SFT is the missing-data error
(naming the epoch index, the expected and read bins and the last
contributing file), an unread one the no-data error. -/
def finalCheck (lastbin : ℕ) (segs : ℕ → SFTReadSegment) :
    List ℕ → Except LoadErr Unit
  | [] => .ok ()
  | i :: is =>
    if (segs i).last = lastbin then finalCheck lastbin segs is
    else if (segs i).last ≠ 0 then
      .error (.missingData i lastbin (segs i).last (segs i).lastfrom)
    else .error (.noData i)

/-- `XLALLoadSFTs` over a catalog of descriptors: index the epochs, sort by
locator, run the assembly loop from a zeroed segment array, then the
completeness pass; on success the segment records (standing for the filled
SFT vector) and `nSFTs` are returned.  The requested window
`[firstbin, lastbin]` is a parameter (upstream it comes from `fMin`/`fMax`
rounding).  An empty catalog is `none`: the source reads
`catalog->data[0]` unconditionally. -/
def XLALLoadSFTs (cat : List CatDesc) (firstbin lastbin : ℕ) :
    Option (Except LoadErr ((ℕ → SFTReadSegment) × ℕ)) :=
  match cat with
  | [] => none
  | d0 :: rest =>
    some ((loadLoop d0.deltaF firstbin initSegs (sortedCatalog d0 rest)).bind
      (fun segs =>
        (finalCheck lastbin segs (List.range (countSFTs d0.epoch 1 rest))).bind
          (fun _ => Except.ok (segs, countSFTs d0.epoch 1 rest))))

/-- Bin `b` of epoch index `i` is covered by an accepted read of the
catalog slice `lst`. -/
def coveredBy (lst : List (ℕ × CatDesc)) (i b : ℕ) : Prop :=
  ∃ p ∈ lst, p.1 = i ∧ p.2.read.2 ≠ 0 ∧ p.2.read.1 ≤ b ∧ b ≤ p.2.read.2

/-- Loop invariant: every epoch with data so far starts at `firstbin` and is
covered gap-free up to its current `last` bin by the reads already
processed. -/
def segInv (firstbin : ℕ) (lst : List (ℕ × CatDesc))
    (segs : ℕ → SFTReadSegment) : Prop :=
  ∀ i, (segs i).last ≠ 0 →
    (segs i).first = firstbin ∧
    ∀ b, firstbin ≤ b → b ≤ (segs i).last → coveredBy lst i b

theorem coveredBy_mono (lst more : List (ℕ × CatDesc)) (i b : ℕ)
    (h : coveredBy lst i b) : coveredBy (lst ++ more) i b := by
  obtain ⟨p, hp, hrest⟩ := h
  exact ⟨p, List.mem_append_left more hp, hrest⟩

theorem loadStep_inv (df : ℚ) (fb : ℕ) (segs : ℕ → SFTReadSegment) (i : ℕ)
    (d : CatDesc) (segs2 : ℕ → SFTReadSegment) (lst : List (ℕ × CatDesc))
    (h : loadStep df fb segs i d = Except.ok segs2)
    (hinv : segInv fb lst segs) : segInv fb (lst ++ [(i, d)]) segs2 := by
  rw [loadStep] at h
  split_ifs at h with c1 c2 c3 c4 c5 c6 c7 c8 c9 c10
  · -- first segment accepted
    have hs : segs2 = setSeg segs i ⟨d.read.1, d.read.2, d.epoch, d.fname⟩ :=
      (Except.ok.inj h).symm
    subst hs
    intro j hj
    rw [setSeg] at hj ⊢
    by_cases hji : j = i
    · rw [if_pos hji] at hj ⊢
      rw [not_not] at c3
      refine ⟨c3, fun b hb1 hb2 => ?_⟩
      exact ⟨(i, d), List.mem_append_right lst (List.mem_singleton_self _),
        hji ▸ rfl, c1, c3 ▸ hb1, hb2⟩
    · rw [if_neg hji] at hj ⊢
      obtain ⟨h1, h2⟩ := hinv j hj
      exact ⟨h1, fun b hb1 hb2 => coveredBy_mono _ _ _ _ (h2 b hb1 hb2)⟩
  · -- continuation segment accepted
    have hs : segs2 = setSeg segs i
        ⟨(segs i).first, d.read.2, (segs i).epoch, d.fname⟩ :=
      (Except.ok.inj h).symm
    subst hs
    intro j hj
    rw [setSeg] at hj ⊢
    by_cases hji : j = i
    · rw [if_pos hji] at hj ⊢
      obtain ⟨h1, h2⟩ := hinv i c2
      rw [not_not] at c5
      refine ⟨h1, fun b hb1 hb2 => ?_⟩
      by_cases hble : b ≤ (segs i).last
      · exact coveredBy_mono _ _ _ _ (hji ▸ h2 b hb1 hble)
      · push_neg at hble
        refine ⟨(i, d), List.mem_append_right lst (List.mem_singleton_self _),
          hji ▸ rfl, c1, ?_, hb2⟩
        show d.read.1 ≤ b
        omega
    · rw [if_neg hji] at hj ⊢
      obtain ⟨h1, h2⟩ := hinv j hj
      exact ⟨h1, fun b hb1 hb2 => coveredBy_mono _ _ _ _ (h2 b hb1 hb2)⟩
  · -- no data needed, epoch recorded
    have hs : segs2 = setSeg segs i
        ⟨(segs i).first, (segs i).last, d.epoch, (segs i).lastfrom⟩ :=
      (Except.ok.inj h).symm
    subst hs
    intro j hj
    rw [setSeg] at hj ⊢
    by_cases hji : j = i
    · rw [if_pos hji] at hj ⊢
      have hj2 : (segs j).last ≠ 0 := by rw [hji]; exact hj
      obtain ⟨h1, h2⟩ := hinv j hj2
      refine ⟨?_, fun b hb1 hb2 => coveredBy_mono _ _ _ _ (h2 b hb1 ?_)⟩
      · show (segs i).first = fb
        rw [← hji]
        exact h1
      · show b ≤ (segs j).last
        rw [hji]
        exact hb2
    · rw [if_neg hji] at hj ⊢
      obtain ⟨h1, h2⟩ := hinv j hj
      exact ⟨h1, fun b hb1 hb2 => coveredBy_mono _ _ _ _ (h2 b hb1 hb2)⟩
  · -- no data needed, epoch already consistent
    have hs : segs2 = segs := (Except.ok.inj h).symm
    subst hs
    intro j hj
    obtain ⟨h1, h2⟩ := hinv j hj
    exact ⟨h1, fun b hb1 hb2 => coveredBy_mono _ _ _ _ (h2 b hb1 hb2)⟩

theorem loadLoop_inv (df : ℚ) (fb : ℕ) :
    ∀ (lst pre : List (ℕ × CatDesc)) (segs segs2 : ℕ → SFTReadSegment),
    loadLoop df fb segs lst = Except.ok segs2 → segInv fb pre segs →
    segInv fb (pre ++ lst) segs2 := by
  intro lst
  induction lst with
  | nil =>
    intro pre segs segs2 h hinv
    simp only [loadLoop] at h
    have hs : segs2 = segs := (Except.ok.inj h).symm
    subst hs
    simpa using hinv
  | cons p rest ih =>
    intro pre segs segs2 h hinv
    simp only [loadLoop] at h
    cases hs : loadStep df fb segs p.1 p.2 with
    | error e =>
      rw [hs] at h
      simp only [Except.bind] at h
      cases h
    | ok s2 =>
      rw [hs] at h
      simp only [Except.bind] at h
      have h1 := loadStep_inv df fb segs p.1 p.2 s2 pre hs hinv
      have h2 := ih (pre ++ [(p.1, p.2)]) s2 segs2 h h1
      rw [List.append_assoc] at h2
      simpa using h2

theorem loadLoop_append (df : ℚ) (fb : ℕ) (xs ys : List (ℕ × CatDesc)) :
    ∀ segs, loadLoop df fb segs (xs ++ ys) =
      (loadLoop df fb segs xs).bind (fun s => loadLoop df fb s ys) := by
  induction xs with
  | nil =>
    intro segs
    simp only [List.nil_append, loadLoop, Except.bind]
  | cons p xs ih =>
    intro segs
    rw [List.cons_append]
    simp only [loadLoop]
    cases hs : loadStep df fb segs p.1 p.2 with
    | error e => simp only [Except.bind]
    | ok s2 =>
      simp only [Except.bind]
      exact ih s2

theorem finalCheck_ok (lastbin : ℕ) (segs : ℕ → SFTReadSegment) :
    ∀ is, finalCheck lastbin segs is = Except.ok () →
    ∀ i ∈ is, (segs i).last = lastbin := by
  intro is
  induction is with
  | nil => intro _ i hi; cases hi
  | cons j is ih =>
    intro h i hi
    simp only [finalCheck] at h
    split_ifs at h with hc1 hc2
    rcases List.mem_cons.mp hi with hji | hmem
    · rw [hji]
      exact hc1
    · exact ih h i hmem

/-- C3: in `XLALLoadSFTs`, (a) when the assembly loop meets a read for an
epoch that already has data and whose first bin does not immediately follow
the last bin previously read, the whole load fails with the gap-or-overlap
error naming both contributing files; and (b) a successful load implies
every epoch's array is filled edge-to-edge: each segment record starts at
`firstbin`, ends at `lastbin`, and every bin of the window is covered by an
accepted read — no partially filled series is ever returned. -/
theorem loadSFTs_gap_and_complete :
    (∀ (d0 : CatDesc) (rest : List CatDesc) (firstbin lastbin : ℕ)
       (pre post : List (ℕ × CatDesc)) (isft : ℕ) (d : CatDesc)
       (segs : ℕ → SFTReadSegment),
       sortedCatalog d0 rest = pre ++ (isft, d) :: post →
       loadLoop d0.deltaF firstbin initSegs pre = Except.ok segs →
       (segs isft).last ≠ 0 → d.read.2 ≠ 0 →
       d.read.1 ≠ (segs isft).last + 1 →
       XLALLoadSFTs (d0 :: rest) firstbin lastbin =
         some (Except.error (LoadErr.gapOverlap isft (segs isft).last
           (segs isft).lastfrom d.read.1 d.fname))) ∧
    (∀ (d0 : CatDesc) (rest : List CatDesc) (firstbin lastbin : ℕ)
       (segs : ℕ → SFTReadSegment) (n : ℕ),
       0 < lastbin →
       XLALLoadSFTs (d0 :: rest) firstbin lastbin =
         some (Except.ok (segs, n)) →
       ∀ i, i < n →
         (segs i).first = firstbin ∧ (segs i).last = lastbin ∧
         ∀ b, firstbin ≤ b → b ≤ lastbin →
           coveredBy (sortedCatalog d0 rest) i b) := by
  constructor
  · intro d0 rest firstbin lastbin pre post isft d segs hsplit hpre hlast hread hgap
    rw [XLALLoadSFTs, hsplit, loadLoop_append, hpre]
    simp only [Except.bind]
    simp only [loadLoop]
    rw [loadStep]
    rw [if_pos hread, if_neg hlast, if_pos hgap]
    rfl
  · intro d0 rest firstbin lastbin segs n hlb h
    rw [XLALLoadSFTs] at h
    rw [Option.some.injEq] at h
    cases hloop : loadLoop d0.deltaF firstbin initSegs (sortedCatalog d0 rest) with
    | error e =>
      rw [hloop] at h
      simp only [Except.bind] at h
      cases h
    | ok s =>
      rw [hloop] at h
      simp only [Except.bind] at h
      cases hfc : finalCheck lastbin s (List.range (countSFTs d0.epoch 1 rest)) with
      | error e =>
        rw [hfc] at h
        cases h
      | ok u =>
        rw [hfc] at h
        cases u
        rw [Except.ok.injEq, Prod.mk.injEq] at h
        obtain ⟨hseg, hn⟩ := h
        subst hseg
        subst hn
        intro i hi
        have hlastex := finalCheck_ok lastbin s _ hfc i (List.mem_range.mpr hi)
        have hinv := loadLoop_inv d0.deltaF firstbin (sortedCatalog d0 rest) []
          initSegs s hloop (fun j hj => absurd rfl hj)
        rw [List.nil_append] at hinv
        have hne : (s i).last ≠ 0 := by omega
        obtain ⟨h1, h2⟩ := hinv i hne
        exact ⟨h1, hlastex, fun b hb1 hb2 => h2 b hb1 (by omega)⟩

/-- Concrete catalog for the gap half of the C3 witness: two same-epoch
reads covering bins 5-7 and 9-9 (bin 8 missing). -/
def w3ad0 : CatDesc := ⟨⟨100, 0⟩, 1, 0, [97], 0, (5, 7)⟩

/-- Second descriptor of the gap catalog. -/
def w3ad1 : CatDesc := ⟨⟨100, 0⟩, 1, 0, [98], 0, (9, 9)⟩

/-- Segment state after the first gap-catalog read. -/
def w3aSegs : ℕ → SFTReadSegment :=
  fun i => if i = 0 then ⟨5, 7, ⟨100, 0⟩, [97]⟩ else ⟨0, 0, ⟨0, 0⟩, []⟩

/-- Concrete catalog for the completeness half of the C3 witness: one read
covering the whole window 5-9. -/
def w3bd0 : CatDesc := ⟨⟨200, 0⟩, 1, 0, [99], 0, (5, 9)⟩

/-- Segment state of the successful one-descriptor load. -/
def w3bSegs : ℕ → SFTReadSegment :=
  fun i => if i = 0 then ⟨5, 9, ⟨200, 0⟩, [99]⟩ else ⟨0, 0, ⟨0, 0⟩, []⟩

/-- Witness for C3: the gap catalog aborts with the gap-or-overlap error
naming both files, and the complete catalog loads with its only epoch
filled edge-to-edge. -/
theorem loadSFTs_gap_and_complete_witness :
    (XLALLoadSFTs [w3ad0, w3ad1] 5 9 =
       some (Except.error (LoadErr.gapOverlap 0 (w3aSegs 0).last
         (w3aSegs 0).lastfrom w3ad1.read.1 w3ad1.fname))) ∧
    ((w3bSegs 0).first = 5 ∧ (w3bSegs 0).last = 9 ∧
       ∀ b, 5 ≤ b → b ≤ 9 → coveredBy (sortedCatalog w3bd0 []) 0 b) :=
  ⟨loadSFTs_gap_and_complete.1 w3ad0 [w3ad1] 5 9 [(0, w3ad0)] [] 0 w3ad1
     w3aSegs rfl rfl (by decide) (by decide) (by decide),
   loadSFTs_gap_and_complete.2 w3bd0 [] 5 9 w3bSegs 1 (by decide) rfl 0
     (by decide)⟩


/-! ## SFDB importer (`XLALReadSFDB` / `CheckIfSFDBInScienceMode`) -/

/-- `SFDB_detector_names`: index 1 = "V1", 2 = "H1", 3 = "L1" (index 0,
Nautilus, is unsupported and left empty). -/
def SFDB_detector_names : ℕ → List ℕ
  | 1 => [86, 49]
  | 2 => [72, 49]
  | 3 => [76, 49]
  | _ => []

/-- The fields of `SFDBHeader` that `CheckIfSFDBInScienceMode` reads
(detector index, GPS seconds, coherence time); the other header fields do
not enter the check. -/
structure SFDBHeader where
  det : ℕ
  gps_sec : ℤ
  tbase : ℚ

/-- The unguarded detector-index scan of `CheckIfSFDBInScienceMode`
(`while (strcmp(...) != 0) ++detectorIndex`): `none` when the name is
absent and the source walks off the end of the vector. -/
def detectorIndexScan (name : List ℕ) : List (List ℕ) → Option ℕ
  | [] => none
  | d :: ds =>
    if d = name then some 0 else (detectorIndexScan name ds).map (· + 1)

/-- The timestamp-window scan: advance while `gps_sec >=` the window start,
returning true at the first window whose end is strictly above
`gps_sec + tbase`; `none` when the scan runs past either list (the source
indexes both arrays without a bound check). -/
def scienceScan (gps : ℤ) (endT : ℚ) : List ℤ → List ℤ → Option Bool
  | [], _ => none
  | s :: ss, es =>
    if gps ≥ s then
      match es with
      | [] => none
      | e :: es2 =>
        if endT < (e : ℚ) then some true
        else scienceScan gps endT ss es2
    else some false

/-- `CheckIfSFDBInScienceMode`: find the record's detector in the
`detectors` vector, then scan that detector's start/end timestamp lists
with `SFDBEndTime = gps_sec + tbase`. -/
def CheckIfSFDBInScienceMode (header : SFDBHeader)
    (detectors : List (List ℕ)) (startingTS endingTS : List (List ℤ)) :
    Option Bool :=
  (detectorIndexScan (SFDB_detector_names header.det) detectors).bind
    (fun idx =>
      match startingTS[idx]?, endingTS[idx]? with
      | some ss, some es =>
        scienceScan header.gps_sec ((header.gps_sec : ℚ) + header.tbase) ss es
      | _, _ => none)

/-- `strstr` as used on timestamp file names. -/
def strstrB (hay needle : List ℕ) : Bool :=
  hay.tails.any (fun t => List.isPrefixOf needle t)

/-- The detector names appended for one auxiliary timestamp file: each of
V1, H1, L1 whose name occurs in the file name (the `Y` loop of
`XLALReadSFDB`). -/
def tsFileDetectors (fname : List ℕ) : List (List ℕ) :=
  (([1, 2, 3] : List ℕ).filter
    (fun y => strstrB fname (SFDB_detector_names y))).map SFDB_detector_names

/-- The configuration error of the detector-assignment prologue
(`XLAL_EINVAL`, "No matching IFO name was found for time stamp file %s"). -/
inductive SFDBErr where
  | noMatchingIFO : List ℕ → SFDBErr
deriving DecidableEq

/-- The prologue of `XLALReadSFDB` over the starting-timestamp file names:
build the `detectors` vector, failing on the first file that contains none
of the known detector names. -/
def assignDetectors : List (List ℕ) → Except SFDBErr (List (List ℕ))
  | [] => .ok []
  | f :: fs =>
    if tsFileDetectors f = [] then .error (.noMatchingIFO f)
    else (assignDetectors fs).map (fun ds => tsFileDetectors f ++ ds)

theorem scienceScan_iff (gps : ℤ) (endT : ℚ) :
    ∀ (ss es : List ℤ) (b : Bool), ss.Sorted (fun a b => a ≤ b) →
    scienceScan gps endT ss es = some b →
    (b = true ↔ ∃ p ∈ ss.zip es, p.1 ≤ gps ∧ endT < (p.2 : ℚ)) := by
  intro ss
  induction ss with
  | nil =>
    intro es b hs h
    cases h
  | cons s ss2 ih =>
    intro es b hs h
    obtain ⟨hhead, htail⟩ := List.sorted_cons.mp hs
    cases es with
    | nil =>
      simp only [scienceScan] at h
      by_cases hgs : gps ≥ s
      · rw [if_pos hgs] at h
        cases h
      · rw [if_neg hgs, Option.some.injEq] at h
        subst h
        simp only [Bool.false_eq_true, false_iff]
        rintro ⟨p, hp, _⟩
        rw [List.zip_nil_right] at hp
        cases hp
    | cons e es2 =>
      simp only [scienceScan] at h
      by_cases hgs : gps ≥ s
      · rw [if_pos hgs] at h
        by_cases hend : endT < (e : ℚ)
        · rw [if_pos hend, Option.some.injEq] at h
          subst h
          constructor
          · intro _
            exact ⟨(s, e), by rw [List.zip_cons_cons]; exact List.mem_cons_self _ _,
              hgs, hend⟩
          · intro _
            rfl
        · rw [if_neg hend] at h
          rw [ih es2 b htail h, List.zip_cons_cons]
          constructor
          · rintro ⟨p, hp, hc⟩
            exact ⟨p, List.mem_cons_of_mem _ hp, hc⟩
          · rintro ⟨p, hp, hc1, hc2⟩
            rcases List.mem_cons.mp hp with hpe | hpm
            · rw [hpe] at hc2
              exact absurd hc2 hend
            · exact ⟨p, hpm, hc1, hc2⟩
      · rw [if_neg hgs, Option.some.injEq] at h
        subst h
        simp only [Bool.false_eq_true, false_iff]
        rintro ⟨p, hp, hc1, hc2⟩
        rw [List.zip_cons_cons] at hp
        rcases List.mem_cons.mp hp with hpe | hpm
        · rw [hpe] at hc1
          exact hgs hc1
        · have hmem := (List.of_mem_zip hpm).1
          have hle : s ≤ p.1 := hhead p.1 hmem
          exact hgs (le_trans hle hc1)

theorem assignDetectors_err :
    ∀ (files : List (List ℕ)) (f : List ℕ), f ∈ files →
    tsFileDetectors f = [] →
    ∃ f2 ∈ files, tsFileDetectors f2 = [] ∧
      assignDetectors files = Except.error (SFDBErr.noMatchingIFO f2) := by
  intro files
  induction files with
  | nil => intro f hf; cases hf
  | cons g fs ih =>
    intro f hf hnone
    by_cases hg : tsFileDetectors g = []
    · refine ⟨g, List.mem_cons_self _ _, hg, ?_⟩
      simp only [assignDetectors]
      rw [if_pos hg]
    · rcases List.mem_cons.mp hf with hfe | hfm
      · rw [hfe] at hnone
        exact absurd hnone hg
      · obtain ⟨f2, hf2, hn2, herr⟩ := ih f hfm hnone
        refine ⟨f2, List.mem_cons_of_mem _ hf2, hn2, ?_⟩
        simp only [assignDetectors]
        rw [if_neg hg, herr]
        rfl

/-- C8 counterexample: an H1 record with epoch 0 and tbase 1800 whose
interval `[0, 1800)` lies inside the science window `[0, 1800)` — so the
spec's half-open containment holds — is nevertheless rejected, because the
source demands `gps_sec + tbase` STRICTLY below the window end. -/
theorem sfdbScienceMode_counterexample :
    CheckIfSFDBInScienceMode ⟨2, 0, 1800⟩ [[72, 49]] [[0, 5000]]
      [[1800, 9000]] = some false ∧
    (∃ p ∈ ([0, 5000] : List ℤ).zip ([1800, 9000] : List ℤ),
      p.1 ≤ (0 : ℤ) ∧ ((0 : ℤ) : ℚ) + 1800 ≤ (p.2 : ℚ)) := by
  constructor
  · norm_num [CheckIfSFDBInScienceMode, detectorIndexScan, SFDB_detector_names,
      scienceScan, Option.bind]
  · refine ⟨((0 : ℤ), (1800 : ℤ)), by norm_num, by norm_num, by norm_num⟩

/-- C8 (amended): (a) when the science scan terminates inside the arrays
and the start timestamps are sorted, a record qualifies iff some window of
the matching detector satisfies `start ≤ epoch` AND `epoch + tbase <
end` — strictly below the window end, not the half-open containment
`epoch + tbase ≤ end`; (b) an auxiliary timestamp file matching none of
the known detector names makes the import prologue fail with the
configuration error naming such a file. -/
theorem sfdbScienceMode_and_detectors :
    (∀ (header : SFDBHeader) (detectors : List (List ℕ))
       (sTS eTS : List (List ℤ)) (idx : ℕ) (ss es : List ℤ) (b : Bool),
       detectorIndexScan (SFDB_detector_names header.det) detectors =
         some idx →
       sTS[idx]? = some ss → eTS[idx]? = some es →
       ss.Sorted (fun a b => a ≤ b) →
       CheckIfSFDBInScienceMode header detectors sTS eTS = some b →
       (b = true ↔ ∃ p ∈ ss.zip es, p.1 ≤ header.gps_sec ∧
         (header.gps_sec : ℚ) + header.tbase < (p.2 : ℚ))) ∧
    (∀ (files : List (List ℕ)) (f : List ℕ), f ∈ files →
       tsFileDetectors f = [] →
       ∃ f2 ∈ files, tsFileDetectors f2 = [] ∧
         assignDetectors files = Except.error (SFDBErr.noMatchingIFO f2)) := by
  constructor
  · intro header detectors sTS eTS idx ss es b hidx hss hes hsorted h
    rw [CheckIfSFDBInScienceMode, hidx] at h
    simp only [Option.bind] at h
    rw [hss, hes] at h
    exact scienceScan_iff header.gps_sec
      ((header.gps_sec : ℚ) + header.tbase) ss es b hsorted h
  · exact assignDetectors_err

/-- Witness for C8: a record with end time strictly inside the window
qualifies (scan terminates, window found), and a timestamp file name with
no detector substring aborts the prologue. -/
theorem sfdbScienceMode_and_detectors_witness :
    (true = true ↔ ∃ p ∈ ([0, 5000] : List ℤ).zip ([900, 9000] : List ℤ),
      p.1 ≤ (0 : ℤ) ∧ ((0 : ℤ) : ℚ) + 800 < (p.2 : ℚ)) ∧
    (∃ f2 ∈ ([[120, 121]] : List (List ℕ)), tsFileDetectors f2 = [] ∧
      assignDetectors [[120, 121]] =
        Except.error (SFDBErr.noMatchingIFO f2)) :=
  ⟨sfdbScienceMode_and_detectors.1 ⟨2, 0, 800⟩ [[72, 49]] [[0, 5000]]
      [[900, 9000]] 0 [0, 5000] [900, 9000] true rfl rfl rfl
      (by norm_num) (by norm_num [CheckIfSFDBInScienceMode, detectorIndexScan,
        SFDB_detector_names, scienceScan, Option.bind]),
   sfdbScienceMode_and_detectors.2 [[120, 121]] [120, 121]
      (List.mem_singleton_self _) (by decide)⟩

end SFTio
